import Mathlib

/-!
Verification development for the exercise settlement engine
(`SettlementEngine.ts`, `ProfitabilityCalculator.ts` and the shared type
definitions of `types/Option.ts`).

The TypeScript source is shallowly embedded:

* JS `bigint` / JSBI values become `Int` (or `Nat` where the source value is
  provably non-negative, as in the Uniswap fixed-point price math);
* the numeric string fields of the wire types (`tickLower`, `tickUpper`,
  `liquidity`, decimal `toString()` renderings) are embedded as integers,
  and the template-literal / `JSON.stringify` serialisation used by the
  cache keys is embedded as an explicit character-list encoder;
* `Map` objects become association lists where the most recent insertion
  shadows earlier ones (the overwrite semantics of `Map.set`);
* every fallible network interaction (RPC client construction, the metadata
  multicall, the quote multicall, chain-configuration lookups) is an
  `Except Unit` oracle packaged in `CalcEnv`; a thrown JS exception is the
  `.error` case;
* `async` control flow is straight-line state passing: the engine's polling
  loop is a step function over an explicit schedule of iteration outcomes.
-/

namespace SettlementModel

/-- Association-list lookup modelling `Map.get`; keys are the character
lists of the JS string keys.  `Map.set` is modelled by consing, so the most
recent binding wins, matching overwrite semantics. -/
def assocFind {β : Type} : List (List Char × β) → List Char → Option β
  | [], _ => none
  | (k, v) :: rest, key => if k = key then some v else assocFind rest key

/-! ### Decimal serialisation

`generateProfitabilityCacheKey` in `ProfitabilityCalculator.ts` renders the
request through a template literal and `JSON.stringify`.  Numbers and
BigInt values render in decimal; the encoders below embed that rendering. -/

/-- Character of a decimal digit (`0 ≤ d ≤ 9` in all uses). -/
def digitChar (d : Nat) : Char := Char.ofNat (48 + d)

/-- Fuelled decimal rendering of a natural number, most significant digit
first.  The fuel is only a structural-recursion device; `natDigits` always
supplies enough. -/
def natDigitsAux : Nat → Nat → List Char
  | 0, _ => []
  | fuel + 1, n =>
    if n < 10 then [digitChar n]
    else natDigitsAux fuel (n / 10) ++ [digitChar (n % 10)]

/-- Decimal rendering of a natural number (JS `Number`/`BigInt` `toString`). -/
def natDigits (n : Nat) : List Char := natDigitsAux (n + 1) n

/-- Decimal rendering of an integer (JS `BigInt`/`Number` `toString`),
with a leading minus sign for negatives. -/
def intChars (i : Int) : List Char :=
  if i < 0 then '-' :: natDigits i.natAbs else natDigits i.toNat

/-- Decimal decoder used to prove that the rendering is injective. -/
def decDecode (l : List Char) : Nat :=
  l.foldl (fun a c => a * 10 + (c.toNat - 48)) 0

/-! ### The request type and its cache key

`GetRatesRequest` of `types/Option.ts`: chain id, market address, pool
address, token id, call flag and the ordered list of internal options.
The numeric string fields `tickLower`/`tickUpper`/`liquidity` are embedded
as integers (their parsed values); the cache key renders them back in
canonical decimal, exactly as `JSON.stringify` renders the wire strings. -/

structure ReqInternalOption where
  tickLower : Int
  tickUpper : Int
  liquidity : Int
deriving DecidableEq, Repr

structure GetRatesRequest where
  chainId : Nat
  market : String
  pool : String
  tokenId : String
  isCall : Bool
  internalOptions : List ReqInternalOption
deriving DecidableEq, Repr

/-- The fixed JSON fragment `{"tickLower":"` opening one serialised
internal option (`\x7b` is the opening brace). -/
def jsonHdr : List Char :=
  '\x7b' :: '"' :: 't' :: 'i' :: 'c' :: 'k' :: 'L' :: 'o' :: 'w' :: 'e' :: 'r' :: '"' :: ':' :: '"' :: []

/-- The fragment `,"tickUpper":"` that follows the closing quote of the
tickLower value. -/
def jsonMidUpper : List Char :=
  ',' :: '"' :: 't' :: 'i' :: 'c' :: 'k' :: 'U' :: 'p' :: 'p' :: 'e' :: 'r' :: '"' :: ':' :: '"' :: []

/-- The fragment `,"liquidity":"` that follows the closing quote of the
tickUpper value. -/
def jsonMidLiq : List Char :=
  ',' :: '"' :: 'l' :: 'i' :: 'q' :: 'u' :: 'i' :: 'd' :: 'i' :: 't' :: 'y' :: '"' :: ':' :: '"' :: []

/-- Rendering by `JSON.stringify` of one internal option
`{"tickLower":"…","tickUpper":"…","liquidity":"…"}` (property order as the
objects are built in `SettlementEngine.handleExpiringOption`); `\x7d` is
the closing brace. -/
def objChars (o : ReqInternalOption) : List Char :=
  jsonHdr ++ (intChars o.tickLower ++ ('"' :: (jsonMidUpper ++ (intChars o.tickUpper ++
    ('"' :: (jsonMidLiq ++ (intChars o.liquidity ++ ('"' :: ['\x7d']))))))))

/-- Serialisation of the tail of a JSON array: each later element is
preceded by a comma, and the array ends with `]`. -/
def optsTail : List ReqInternalOption → List Char
  | [] => [']']
  | o :: rest => ',' :: (objChars o ++ optsTail rest)

/-- Rendering by `JSON.stringify` of the internal-option list (a JSON array). -/
def optsChars : List ReqInternalOption → List Char
  | [] => '[' :: [']']
  | o :: rest => '[' :: (objChars o ++ optsTail rest)

/-- JS `${bool}` rendering. -/
def boolChars : Bool → List Char
  | true => ['t', 'r', 'u', 'e']
  | false => ['f', 'a', 'l', 's', 'e']

/-- Embedding of `generateProfitabilityCacheKey`:
`` `${chainId}-${market}-${pool}-${tokenId}-${isCall}-${JSON.stringify(internalOptions)}` ``. -/
def generateProfitabilityCacheKey (r : GetRatesRequest) : List Char :=
  natDigits r.chainId ++ ('-' :: (r.market.data ++ ('-' :: (r.pool.data ++
    ('-' :: (r.tokenId.data ++ ('-' :: (boolChars r.isCall ++
    ('-' :: optsChars r.internalOptions)))))))))

/-- Embedding of `generatePoolMarketCacheKey`: `` `${chainId}-${market}-${pool}` ``. -/
def generatePoolMarketCacheKey (chainId : Nat) (market pool : String) : List Char :=
  natDigits chainId ++ ('-' :: (market.data ++ ('-' :: pool.data)))

/-! ### Uniswap v3 SDK fixed-point math

The calculator converts each tick bound to a square-root price in Q64.96
fixed point with `TickMath.getSqrtRatioAtTick` and then applies
`SqrtPriceMath.getAmount0Delta` / `getAmount1Delta` with `roundUp = true`.
These SDK functions are embedded below on `Nat` (all values involved are
non-negative arbitrary-precision integers in the SDK). -/

/-- SDK `mulShift`: multiply and drop 128 fractional bits
(`JSBI.signedRightShift(JSBI.multiply(val, mulBy), 128)`, here written as
division by `2 ^ 128` since both operands are non-negative). -/
def mulShift (val mulBy : Nat) : Nat := val * mulBy / 2 ^ 128

/-- Embedding of `TickMath.getSqrtRatioAtTick` without its range invariant: the chain of
per-bit magic multipliers, the reciprocal for positive ticks, and the final
round-up conversion from Q128.128 to Q64.96. -/
def sqrtRatioAtTickChain (tick : Int) : Nat :=
  let absTick : Nat := tick.natAbs
  let r0 : Nat :=
    if absTick &&& 0x1 ≠ 0 then 0xfffcb933bd6fad37aa2d162d1a594001
    else 0x100000000000000000000000000000000
  let r1 := if absTick &&& 0x2 ≠ 0 then mulShift r0 0xfff97272373d413259a46990580e213a else r0
  let r2 := if absTick &&& 0x4 ≠ 0 then mulShift r1 0xfff2e50f5f656932ef12357cf3c7fdcc else r1
  let r3 := if absTick &&& 0x8 ≠ 0 then mulShift r2 0xffe5caca7e10e4e61c3624eaa0941cd0 else r2
  let r4 := if absTick &&& 0x10 ≠ 0 then mulShift r3 0xffcb9843d60f6159c9db58835c926644 else r3
  let r5 := if absTick &&& 0x20 ≠ 0 then mulShift r4 0xff973b41fa98c081472e6896dfb254c0 else r4
  let r6 := if absTick &&& 0x40 ≠ 0 then mulShift r5 0xff2ea16466c96a3843ec78b326b52861 else r5
  let r7 := if absTick &&& 0x80 ≠ 0 then mulShift r6 0xfe5dee046a99a2a811c461f1969c3053 else r6
  let r8 := if absTick &&& 0x100 ≠ 0 then mulShift r7 0xfcbe86c7900a88aedcffc83b479aa3a4 else r7
  let r9 := if absTick &&& 0x200 ≠ 0 then mulShift r8 0xf987a7253ac413176f2b074cf7815e54 else r8
  let r10 := if absTick &&& 0x400 ≠ 0 then mulShift r9 0xf3392b0822b70005940c7a398e4b70f3 else r9
  let r11 := if absTick &&& 0x800 ≠ 0 then mulShift r10 0xe7159475a2c29b7443b29c7fa6e889d9 else r10
  let r12 := if absTick &&& 0x1000 ≠ 0 then mulShift r11 0xd097f3bdfd2022b8845ad8f792aa5825 else r11
  let r13 := if absTick &&& 0x2000 ≠ 0 then mulShift r12 0xa9f746462d870fdf8a65dc1f90e061e5 else r12
  let r14 := if absTick &&& 0x4000 ≠ 0 then mulShift r13 0x70d869a156d2a1b890bb3df62baf32f7 else r13
  let r15 := if absTick &&& 0x8000 ≠ 0 then mulShift r14 0x31be135f97d08fd981231505542fcfa6 else r14
  let r16 := if absTick &&& 0x10000 ≠ 0 then mulShift r15 0x9aa508b5b7a84e1c677de54f3e99bc9 else r15
  let r17 := if absTick &&& 0x20000 ≠ 0 then mulShift r16 0x5d6af8dedb81196699c329225ee604 else r16
  let r18 := if absTick &&& 0x40000 ≠ 0 then mulShift r17 0x2216e584f5fa1ea926041bedfe98 else r17
  let r19 := if absTick &&& 0x80000 ≠ 0 then mulShift r18 0x48a170391f7dc42444e8fa2 else r18
  let r := if 0 < tick then (2 ^ 256 - 1) / r19 else r19
  r / 2 ^ 32 + (if r % 2 ^ 32 = 0 then 0 else 1)

/-- Constant `TickMath.MIN_TICK`. -/
def MIN_TICK : Int := -887272

/-- Constant `TickMath.MAX_TICK`. -/
def MAX_TICK : Int := 887272

/-- Embedding of `TickMath.getSqrtRatioAtTick` with its `invariant(tick >= MIN_TICK &&
tick <= MAX_TICK)`: an out-of-range tick throws, which the calculator's
outer `try` turns into the degraded response. -/
def getSqrtRatioAtTick (tick : Int) : Except Unit Nat :=
  if tick < MIN_TICK ∨ MAX_TICK < tick then .error ()
  else .ok (sqrtRatioAtTickChain tick)

/-- Embedding of `FullMath.mulDivRoundingUp`: `⌈a * b / d⌉`. -/
def mulDivRoundingUp (a b d : Nat) : Nat :=
  a * b / d + (if a * b % d = 0 then 0 else 1)

/-- Embedding of `SqrtPriceMath.getAmount0Delta` (the SDK first sorts the two
square-root prices, then computes
`⌈⌈(liquidity << 96) * (upper - lower) / upper⌉ / lower⌉` when rounding
up, or the double floor division otherwise). -/
def getAmount0Delta (sqrtRatioAX96 sqrtRatioBX96 liquidity : Nat) (roundUp : Bool) : Nat :=
  let p := if sqrtRatioBX96 < sqrtRatioAX96 then (sqrtRatioBX96, sqrtRatioAX96)
           else (sqrtRatioAX96, sqrtRatioBX96)
  let numerator1 := liquidity * 2 ^ 96
  let numerator2 := p.2 - p.1
  if roundUp then mulDivRoundingUp (mulDivRoundingUp numerator1 numerator2 p.2) 1 p.1
  else numerator1 * numerator2 / p.2 / p.1

/-- Embedding of `SqrtPriceMath.getAmount1Delta`:
`⌈liquidity * (upper - lower) / 2^96⌉` when rounding up. -/
def getAmount1Delta (sqrtRatioAX96 sqrtRatioBX96 liquidity : Nat) (roundUp : Bool) : Nat :=
  let p := if sqrtRatioBX96 < sqrtRatioAX96 then (sqrtRatioBX96, sqrtRatioAX96)
           else (sqrtRatioAX96, sqrtRatioBX96)
  if roundUp then mulDivRoundingUp liquidity (p.2 - p.1) (2 ^ 96)
  else liquidity * (p.2 - p.1) / 2 ^ 96

/-- The token0 amount of the closed-form delta formula evaluated in exact
(infinite-precision rational) arithmetic and truncated:
`⌊liquidity · 2^96 · (upper − lower) / (upper · lower)⌋` on the sorted
square-root prices. -/
def exactAmount0Floor (sqrtRatioAX96 sqrtRatioBX96 liquidity : Nat) : Nat :=
  let p := if sqrtRatioBX96 < sqrtRatioAX96 then (sqrtRatioBX96, sqrtRatioAX96)
           else (sqrtRatioAX96, sqrtRatioBX96)
  liquidity * 2 ^ 96 * (p.2 - p.1) / (p.2 * p.1)

/-- The token1 amount of the closed-form delta formula evaluated exactly
and truncated: `⌊liquidity · (upper − lower) / 2^96⌋`. -/
def exactAmount1Floor (sqrtRatioAX96 sqrtRatioBX96 liquidity : Nat) : Nat :=
  let p := if sqrtRatioBX96 < sqrtRatioAX96 then (sqrtRatioBX96, sqrtRatioAX96)
           else (sqrtRatioAX96, sqrtRatioBX96)
  liquidity * (p.2 - p.1) / 2 ^ 96

/-! ### Profitability Evaluator (`ProfitabilityCalculator.ts`)

Result shapes of `types/Option.ts` with decimal-string amounts embedded as
integers. -/

/-- Per-sub-position detail (`ProfitabilityResult` in the source). -/
structure ProfitabilityDetail where
  index : Nat
  liquidityAvailable : Int
  amountLocked : Int
  quotedAmountOut : Int
  amountToRefill : Int
  profit : Int
  isProfitable : Bool
deriving DecidableEq, Repr

/-- The always-present exercise-parameter payload. -/
structure ExerciseParams where
  optionId : String
  swapper : List String
  swapData : List (Nat × Int)
  liquidityToExercise : List Int
deriving DecidableEq, Repr

/-- Embedding of `GetRatesResponse`. -/
structure GetRatesResponse where
  tokenId : String
  totalProfit : Int
  isProfitable : Bool
  details : List ProfitabilityDetail
  exerciseParams : ExerciseParams
deriving DecidableEq, Repr

/-- Embedding of `PoolMarketInfo` (the resolved market metadata). -/
structure PoolMarketInfo where
  poolFee : Nat
  callAsset : String
  putAsset : String
  token0 : String
  token1 : String
  primePool : String
deriving DecidableEq, Repr

/-- Outcomes of the five sub-calls of the metadata multicall
(`fee`, `callAsset`, `putAsset`, `token0`, `token1`); a `.error` entry is a
sub-call with `status === "failure"`. -/
structure MetaCallResults where
  fee : Except Unit Nat
  callAsset : Except Unit String
  putAsset : Except Unit String
  token0 : Except Unit String
  token1 : Except Unit String
deriving Repr

/-- Whether an oracle call failed. -/
def exceptFailed {α : Type} : Except Unit α → Bool
  | .error _ => true
  | .ok _ => false

/-- Embedding of `multicallResult.some((result) => result.status === "failure")`. -/
def metaHasFailure (m : MetaCallResults) : Bool :=
  exceptFailed m.fee || exceptFailed m.callAsset || exceptFailed m.putAsset ||
    exceptFailed m.token0 || exceptFailed m.token1

/-- The environment of one `calculateOptionProfitability` invocation: the
clock and every fallible external interaction, as oracles.  A `.error`
value is a thrown exception (or, inside the quote-result list, a
`status === "failure"` entry). -/
structure CalcEnv where
  now : Nat
  rpcUrl : Except Unit String
  primePool : Except Unit String
  metaCalls : Except Unit MetaCallResults
  quoterAddress : Except Unit String
  quoteCalls : Except Unit (List (Except Unit (Int × Int × Int × Int)))
  encodeOk : Bool
  swapRouterSwapper : Except Unit String
deriving Repr

/-- One entry of the batched `quoteExactInputSingle` request array. -/
structure QuoteRequest where
  quoter : String
  tokenIn : String
  tokenOut : String
  amountIn : Int
  fee : Nat
deriving DecidableEq, Repr

/-- One entry of the `internalOptionsData` scratch array. -/
structure OptionData where
  index : Nat
  liquidityAvailable : Int
  amountLocked : Int
  amountToRefill : Int
  skipQuote : Bool
deriving DecidableEq, Repr

/-- The evaluator's two caches (`profitabilityCache`,
`poolMarketInfoCache`). -/
structure CalcState where
  profitabilityCache : List (List Char × (Nat × GetRatesResponse))
  poolMarketInfoCache : List (List Char × PoolMarketInfo)
deriving DecidableEq, Repr

/-- Constant `CACHE_TTL_MS`. -/
def CACHE_TTL_MS : Nat := 5000

/-- Embedding of `isCacheValid`: `Date.now() - timestamp < this.CACHE_TTL_MS`. -/
def isCacheValid (now timestamp : Nat) : Bool := now - timestamp < CACHE_TTL_MS

/-- Comparison `token0 === callAsset` / `token0 === putAsset` depending on the call
flag. -/
def isAmount0 (req : GetRatesRequest) (info : PoolMarketInfo) : Bool :=
  if req.isCall then info.token0 = info.callAsset else info.token0 = info.putAsset

/-- The asset swapped out of (`callAsset` for calls, `putAsset` for puts). -/
def assetToUse (req : GetRatesRequest) (info : PoolMarketInfo) : String :=
  if req.isCall then info.callAsset else info.putAsset

/-- The asset received from the swap. -/
def assetToGet (req : GetRatesRequest) (info : PoolMarketInfo) : String :=
  if req.isCall then info.putAsset else info.callAsset

/-- Embedding of `getPoolMarketInfo`: serve from the metadata cache, otherwise resolve
the prime pool (a separate read when market ≠ pool), run the five-way
multicall, throw if any sub-call failed (partial metadata is never cached),
and cache the assembled record forever. -/
def getPoolMarketInfo (cache : List (List Char × PoolMarketInfo)) (env : CalcEnv)
    (chainId : Nat) (market pool : String) :
    Except Unit PoolMarketInfo × List (List Char × PoolMarketInfo) :=
  let key := generatePoolMarketCacheKey chainId market pool
  match assocFind cache key with
  | some info => (.ok info, cache)
  | none =>
    match (if market = pool then Except.ok pool else env.primePool) with
    | .error e => (.error e, cache)
    | .ok primePool =>
      match env.metaCalls with
      | .error e => (.error e, cache)
      | .ok m =>
        match m.fee, m.callAsset, m.putAsset, m.token0, m.token1 with
        | .ok fee, .ok ca, .ok pa, .ok t0, .ok t1 =>
          let info : PoolMarketInfo :=
            { poolFee := fee, callAsset := ca, putAsset := pa, token0 := t0, token1 := t1,
              primePool := primePool }
          (.ok info, (key, info) :: cache)
        | _, _, _, _, _ => (.error (), cache)

/-- The per-sub-position scan (source lines building `quoteRequests` and
`internalOptionsData`): a sub-position with `liquidity ≤ 0` is recorded as
skipped without touching the price conversion; otherwise both tick bounds
are converted to square-root prices (throwing for out-of-range ticks), the
two rounded-up delta amounts are computed and assigned to locked/refill by
`isAmount0`, and a quote request is queued. -/
def scanOptions (quoterAddr tokenIn tokenOut : String) (poolFee : Nat) (am0 : Bool) :
    List ReqInternalOption → Nat → Except Unit (List QuoteRequest × List OptionData)
  | [], _ => .ok ([], [])
  | o :: rest, i =>
    if o.liquidity ≤ 0 then
      match scanOptions quoterAddr tokenIn tokenOut poolFee am0 rest (i + 1) with
      | .error e => .error e
      | .ok (qs, ds) =>
        .ok (qs, { index := i, liquidityAvailable := 0, amountLocked := 0,
                   amountToRefill := 0, skipQuote := true } :: ds)
    else
      match getSqrtRatioAtTick o.tickLower with
      | .error e => .error e
      | .ok sqrtA =>
        match getSqrtRatioAtTick o.tickUpper with
        | .error e => .error e
        | .ok sqrtB =>
          let amount0 := getAmount0Delta sqrtA sqrtB o.liquidity.toNat true
          let amount1 := getAmount1Delta sqrtA sqrtB o.liquidity.toNat true
          let amountLocked : Int := if am0 then (amount0 : Int) else (amount1 : Int)
          let amountToRefill : Int := if am0 then (amount1 : Int) else (amount0 : Int)
          match scanOptions quoterAddr tokenIn tokenOut poolFee am0 rest (i + 1) with
          | .error e => .error e
          | .ok (qs, ds) =>
            .ok ({ quoter := quoterAddr, tokenIn := tokenIn, tokenOut := tokenOut,
                   amountIn := amountLocked, fee := poolFee } :: qs,
                 { index := i, liquidityAvailable := o.liquidity, amountLocked := amountLocked,
                   amountToRefill := amountToRefill, skipQuote := false } :: ds)

/-- The `internalOptionsData` entry recorded for a skipped
(liquidity ≤ 0) sub-position. -/
def skipOptionData (i : Nat) : OptionData :=
  { index := i, liquidityAvailable := 0, amountLocked := 0, amountToRefill := 0,
    skipQuote := true }

/-- The `internalOptionsData` entry recorded for a scanned sub-position:
the two rounded-up delta amounts assigned to locked/refill according to
`isAmount0`. -/
def scannedOptionData (i : Nat) (liq : Int) (sqrtA sqrtB : Nat) (am0 : Bool) : OptionData :=
  { index := i, liquidityAvailable := liq,
    amountLocked :=
      if am0 then (getAmount0Delta sqrtA sqrtB liq.toNat true : Int)
      else (getAmount1Delta sqrtA sqrtB liq.toNat true : Int),
    amountToRefill :=
      if am0 then (getAmount1Delta sqrtA sqrtB liq.toNat true : Int)
      else (getAmount0Delta sqrtA sqrtB liq.toNat true : Int),
    skipQuote := false }

/-- The zero detail recorded for a skipped (liquidity ≤ 0) sub-position. -/
def zeroDetail (i : Nat) : ProfitabilityDetail :=
  { index := i, liquidityAvailable := 0, amountLocked := 0, quotedAmountOut := 0,
    amountToRefill := 0, profit := 0, isProfitable := false }

/-- The detail recorded when a quote sub-call reports failure. -/
def failedQuoteDetail (od : OptionData) : ProfitabilityDetail :=
  { index := od.index, liquidityAvailable := od.liquidityAvailable,
    amountLocked := od.amountLocked, quotedAmountOut := 0,
    amountToRefill := od.amountToRefill, profit := 0, isProfitable := false }

/-- The detail recorded for a successful quote. -/
def quotedDetail (od : OptionData) (amountOut : Int) : ProfitabilityDetail :=
  { index := od.index, liquidityAvailable := od.liquidityAvailable,
    amountLocked := od.amountLocked, quotedAmountOut := amountOut,
    amountToRefill := od.amountToRefill, profit := amountOut - od.amountToRefill,
    isProfitable := 0 < amountOut - od.amountToRefill }

/-- The result-processing loop (source lines walking `internalOptionsData`
against `quoteResults` with a running `quoteIndex` and `totalProfit`).
Reading past the end of the result array is the thrown `TypeError` of
`undefined.status` and surfaces as `.error`. -/
def processResults (qrs : List (Except Unit (Int × Int × Int × Int))) :
    List OptionData → Nat → Int → Except Unit (Int × List ProfitabilityDetail)
  | [], _, total => .ok (total, [])
  | od :: rest, qi, total =>
    if od.skipQuote then
      match processResults qrs rest qi total with
      | .error e => .error e
      | .ok (t, ds) => .ok (t, zeroDetail od.index :: ds)
    else
      match qrs[qi]? with
      | none => .error ()
      | some (.error _) =>
        match processResults qrs rest (qi + 1) total with
        | .error e => .error e
        | .ok (t, ds) => .ok (t, failedQuoteDetail od :: ds)
      | some (.ok (amountOut, _, _, _)) =>
        let profit := amountOut - od.amountToRefill
        let total' := if 0 < profit then total + profit else total
        match processResults qrs rest (qi + 1) total' with
        | .error e => .error e
        | .ok (t, ds) => .ok (t, quotedDetail od amountOut :: ds)

/-- The response of the two degraded returns inside the `try` block (swap
data encoding failed, or no swapper address): computed totals and details,
but empty swapper/swapData and an all-zero liquidity list. -/
def degradedParamsResponse (req : GetRatesRequest) (total : Int)
    (details : List ProfitabilityDetail) : GetRatesResponse :=
  { tokenId := req.tokenId, totalProfit := total, isProfitable := 0 < total,
    details := details,
    exerciseParams :=
      { optionId := req.tokenId, swapper := [], swapData := [],
        liquidityToExercise := List.replicate req.internalOptions.length 0 } }

/-- The response of the outer `catch` block. -/
def catchResponse (req : GetRatesRequest) : GetRatesResponse :=
  { tokenId := req.tokenId, totalProfit := 0, isProfitable := false, details := [],
    exerciseParams :=
      { optionId := req.tokenId, swapper := [], swapData := [],
        liquidityToExercise := List.replicate req.internalOptions.length 0 } }

/-- Which `return` statement of `calculateOptionProfitability` produced the
response: the fully successful path, the two degraded in-`try` paths, or a
thrown exception landing in `catch`. -/
inductive CalcOutcome where
  | success (r : GetRatesResponse)
  | encodeFail (r : GetRatesResponse)
  | noSwapper (r : GetRatesResponse)
  | thrown
deriving DecidableEq, Repr

/-- Whether the outcome is the fully successful return. -/
def CalcOutcome.isSuccess : CalcOutcome → Bool
  | .success _ => true
  | _ => false

/-- Whether the outcome is the thrown-exception path. -/
def CalcOutcome.isThrown : CalcOutcome → Bool
  | .thrown => true
  | _ => false

/-- The response carried by a non-thrown outcome. -/
def CalcOutcome.response? : CalcOutcome → Option GetRatesResponse
  | .success r => some r
  | .encodeFail r => some r
  | .noSwapper r => some r
  | .thrown => none

/-- The body of the `try` block of `calculateOptionProfitability` (after
the profitability-cache check): client construction, metadata resolution,
quoter lookup, per-sub-position scan, single batched quote call, result
processing, swap-data encoding, swapper lookup and response assembly.
Returns the outcome together with the metadata cache as updated so far
(the metadata cache write happens before any later throw). -/
def calculateBody (pc : List (List Char × PoolMarketInfo)) (env : CalcEnv)
    (req : GetRatesRequest) : CalcOutcome × List (List Char × PoolMarketInfo) :=
  match env.rpcUrl with
  | .error _ => (.thrown, pc)
  | .ok _ =>
    match getPoolMarketInfo pc env req.chainId req.market req.pool with
    | (.error _, pc') => (.thrown, pc')
    | (.ok info, pc') =>
      match env.quoterAddress with
      | .error _ => (.thrown, pc')
      | .ok quoterAddr =>
        match scanOptions quoterAddr (assetToUse req info) (assetToGet req info)
            info.poolFee (isAmount0 req info) req.internalOptions 0 with
        | .error _ => (.thrown, pc')
        | .ok (quoteReqs, optionsData) =>
          match (if 0 < quoteReqs.length then env.quoteCalls else .ok []) with
          | .error _ => (.thrown, pc')
          | .ok quoteResults =>
            match processResults quoteResults optionsData 0 0 with
            | .error _ => (.thrown, pc')
            | .ok (totalProfit, details) =>
              let liquidityToExercise :=
                details.map (fun d => if d.isProfitable then d.liquidityAvailable else 0)
              if env.encodeOk = false then
                (.encodeFail (degradedParamsResponse req totalProfit details), pc')
              else
                let swapData := req.internalOptions.map (fun _ => (info.poolFee, (0 : Int)))
                match env.swapRouterSwapper with
                | .error _ => (.thrown, pc')
                | .ok addr =>
                  if addr = "" then
                    (.noSwapper (degradedParamsResponse req totalProfit details), pc')
                  else
                    (.success
                      { tokenId := req.tokenId, totalProfit := totalProfit,
                        isProfitable := 0 < totalProfit, details := details,
                        exerciseParams :=
                          { optionId := req.tokenId,
                            swapper := List.replicate req.internalOptions.length addr,
                            swapData := swapData,
                            liquidityToExercise := liquidityToExercise } }, pc')

/-- The profitability-cache check at the top of
`calculateOptionProfitability`: `some r` when a cached entry exists and is
still within the TTL. -/
def cacheHit (st : CalcState) (env : CalcEnv) (req : GetRatesRequest) :
    Option GetRatesResponse :=
  match assocFind st.profitabilityCache (generateProfitabilityCacheKey req) with
  | some (ts, r) => if isCacheValid env.now ts then some r else none
  | none => none

/-- Embedding of `calculateOptionProfitability`: serve a valid cached result unchanged,
otherwise run the body; only the fully successful outcome stores into the
profitability cache (timestamped with the current clock), and a thrown
exception is converted into the safe `catch` response. -/
def calculateOptionProfitability (st : CalcState) (env : CalcEnv) (req : GetRatesRequest) :
    GetRatesResponse × CalcState :=
  match cacheHit st env req with
  | some r => (r, st)
  | none =>
    match calculateBody st.poolMarketInfoCache env req with
    | (.success r, pc') =>
      (r, { profitabilityCache :=
              (generateProfitabilityCacheKey req, (env.now, r)) :: st.profitabilityCache,
            poolMarketInfoCache := pc' })
    | (.encodeFail r, pc') => (r, { st with poolMarketInfoCache := pc' })
    | (.noSwapper r, pc') => (r, { st with poolMarketInfoCache := pc' })
    | (.thrown, pc') => (catchResponse req, { st with poolMarketInfoCache := pc' })

/-! ### Settlement Orchestrator (`SettlementEngine.ts`)

The expired-option handler and the control loop. -/

/-- One element of an option's `internalOptions` array (the fields the
settlement path reads, numeric strings embedded as integers). -/
structure EngineInternalOption where
  pool : String
  liquidityAtOpen : Int
  liquidityExercised : Int
  liquiditySettled : Int
  liquidityAtLive : Int
  tickLower : Int
  tickUpper : Int
deriving DecidableEq, Repr

/-- An `Option` record as the engine receives it. -/
structure EngineOption where
  tokenId : String
  market : String
  isCall : Bool
  opTickArrayLen : Nat
  chainId : Nat
  internalOptions : List EngineInternalOption
deriving DecidableEq, Repr

/-- The `settleOption` call parameters. -/
structure SettleOptionParams where
  optionId : String
  swapper : List String
  swapData : List (Nat × Int)
  liquidityToSettle : List Int
deriving DecidableEq, Repr

/-- Embedding of `handleExpiredOption`'s per-sub-position settlement liquidity:
`BigInt(liquidityAtOpen) - BigInt(liquidityExercised) -
BigInt(liquiditySettled)`, exactly as written (there is no floor at
zero in the source). -/
def settleLiquidities (opts : List EngineInternalOption) : List Int :=
  opts.map (fun o => o.liquidityAtOpen - o.liquidityExercised - o.liquiditySettled)

/-- The `SettleOptionParams` value `handleExpiredOption` assembles, given
the fetched pool fee and the configured swapper address. -/
def handleExpiredOptionParams (option : EngineOption) (poolFee : Nat)
    (swapperAddress : String) : SettleOptionParams :=
  { optionId := option.tokenId,
    swapper := List.replicate option.opTickArrayLen swapperAddress,
    swapData := option.internalOptions.map (fun _ => (poolFee, (0 : Int))),
    liquidityToSettle := settleLiquidities option.internalOptions }

/-- Outcome of one iteration body of the `while (this.isRunning)` loop:
either both processing passes returned, or an exception escaped them and
was caught by the loop-level `catch`. -/
inductive LoopEvent where
  | iterOk
  | iterThrow
deriving DecidableEq, Repr

/-- One scheduled loop cycle: the body's outcome and whether `stop()` was
invoked while this cycle was in flight (flipping `isRunning`). -/
structure LoopCycle where
  event : LoopEvent
  stopRequested : Bool
deriving DecidableEq, Repr

/-- Engine state observed by the lifecycle model. -/
structure EngineState where
  isRunning : Bool
  iterations : Nat
  loopErrorLogs : Nat
  warnLogs : Nat
deriving DecidableEq, Repr

/-- Effect of one loop cycle: the iteration counter advances, a thrown
body adds one `Error in main loop` log (and nothing else — the exception is
swallowed), and a `stop()` during the cycle clears the running flag. -/
def runCycle (s : EngineState) (c : LoopCycle) : EngineState :=
  { isRunning := if c.stopRequested then false else s.isRunning,
    iterations := s.iterations + 1,
    loopErrorLogs := if c.event = .iterThrow then s.loopErrorLogs + 1 else s.loopErrorLogs,
    warnLogs := s.warnLogs }

/-- The `while (this.isRunning)` loop run against a finite schedule of
cycle outcomes (the schedule only bounds how far we observe the unbounded
loop): the loop exits exactly when the running flag is down. -/
def runLoop : EngineState → List LoopCycle → EngineState
  | s, [] => s
  | s, c :: rest => if s.isRunning then runLoop (runCycle s c) rest else s

/-- Embedding of `start()`: warn (and do nothing else) when already running, otherwise
raise the flag and enter the loop. -/
def engineStart (s : EngineState) (sched : List LoopCycle) : EngineState :=
  if s.isRunning then { s with warnLogs := s.warnLogs + 1 }
  else runLoop { s with isRunning := true } sched

/-- Embedding of `stop()`: clear the running flag. -/
def engineStop (s : EngineState) : EngineState := { s with isRunning := false }

/-- Two requests that agree on at least five of the six request
components: they differ (at most) in a single field, or only in the
sub-position list (covering both a changed sub-position field and a
reordering of the list). -/
def DiffersInAtMostOneField (r1 r2 : GetRatesRequest) : Prop :=
  (r1.market = r2.market ∧ r1.pool = r2.pool ∧ r1.tokenId = r2.tokenId ∧
     r1.isCall = r2.isCall ∧ r1.internalOptions = r2.internalOptions)
  ∨ (r1.chainId = r2.chainId ∧ r1.pool = r2.pool ∧ r1.tokenId = r2.tokenId ∧
     r1.isCall = r2.isCall ∧ r1.internalOptions = r2.internalOptions)
  ∨ (r1.chainId = r2.chainId ∧ r1.market = r2.market ∧ r1.tokenId = r2.tokenId ∧
     r1.isCall = r2.isCall ∧ r1.internalOptions = r2.internalOptions)
  ∨ (r1.chainId = r2.chainId ∧ r1.market = r2.market ∧ r1.pool = r2.pool ∧
     r1.isCall = r2.isCall ∧ r1.internalOptions = r2.internalOptions)
  ∨ (r1.chainId = r2.chainId ∧ r1.market = r2.market ∧ r1.pool = r2.pool ∧
     r1.tokenId = r2.tokenId ∧ r1.internalOptions = r2.internalOptions)
  ∨ (r1.chainId = r2.chainId ∧ r1.market = r2.market ∧ r1.pool = r2.pool ∧
     r1.tokenId = r2.tokenId ∧ r1.isCall = r2.isCall)

/-! ## Lemmas: decimal rendering -/

theorem decDecode_append_digit (l : List Char) (c : Char) :
    decDecode (l ++ [c]) = decDecode l * 10 + (c.toNat - 48) := by
  unfold decDecode
  rw [List.foldl_append]
  rfl

theorem toNat_digitChar (d : Nat) (h : d < 10) : (digitChar d).toNat = 48 + d := by
  interval_cases d <;> decide

theorem natDigitsAux_decode (fuel : Nat) :
    ∀ n, n < fuel → decDecode (natDigitsAux fuel n) = n := by
  induction fuel with
  | zero => intro n h; omega
  | succ fuel ih =>
    intro n h
    unfold natDigitsAux
    by_cases h10 : n < 10
    · rw [if_pos h10]
      show List.foldl _ 0 [digitChar n] = n
      simp [List.foldl, toNat_digitChar n h10]
    · rw [if_neg h10, decDecode_append_digit]
      have hdiv : n / 10 < n := Nat.div_lt_self (by omega) (by omega)
      rw [ih (n / 10) (by omega), toNat_digitChar (n % 10) (Nat.mod_lt _ (by omega))]
      omega

theorem decDecode_natDigits (n : Nat) : decDecode (natDigits n) = n :=
  natDigitsAux_decode (n + 1) n (by omega)

theorem natDigits_inj {m n : Nat} (h : natDigits m = natDigits n) : m = n := by
  have h' := congrArg decDecode h
  rwa [decDecode_natDigits, decDecode_natDigits] at h'

theorem natDigitsAux_range (fuel : Nat) :
    ∀ n, ∀ c ∈ natDigitsAux fuel n, 48 ≤ c.toNat ∧ c.toNat ≤ 57 := by
  induction fuel with
  | zero => intro n c hc; simp [natDigitsAux] at hc
  | succ fuel ih =>
    intro n c hc
    unfold natDigitsAux at hc
    by_cases h10 : n < 10
    · rw [if_pos h10] at hc
      simp at hc
      subst hc
      rw [toNat_digitChar n h10]
      omega
    · rw [if_neg h10] at hc
      rcases List.mem_append.mp hc with h1 | h2
      · exact ih _ c h1
      · simp at h2
        subst h2
        rw [toNat_digitChar (n % 10) (Nat.mod_lt _ (by omega))]
        omega

theorem natDigits_range (n : Nat) : ∀ c ∈ natDigits n, 48 ≤ c.toNat ∧ c.toNat ≤ 57 :=
  natDigitsAux_range (n + 1) n

theorem natDigits_ne_nil (n : Nat) : natDigits n ≠ [] := by
  unfold natDigits natDigitsAux
  split <;> simp

theorem intChars_no_quote (i : Int) : ∀ c ∈ intChars i, c ≠ '"' := by
  intro c hc heq
  subst heq
  unfold intChars at hc
  split at hc
  · rcases List.mem_cons.mp hc with h1 | h2
    · exact absurd h1 (by decide)
    · have := natDigits_range _ _ h2
      have h34 : ('"').toNat = 34 := by decide
      omega
  · have := natDigits_range _ _ hc
    have h34 : ('"').toNat = 34 := by decide
    omega

theorem intChars_inj {i j : Int} (h : intChars i = intChars j) : i = j := by
  unfold intChars at h
  split at h <;> split at h
  · injection h with _ h2
    have := natDigits_inj h2
    omega
  · obtain ⟨c, cs, hc⟩ := List.exists_cons_of_ne_nil (natDigits_ne_nil j.toNat)
    rw [hc] at h
    injection h with h1 _
    have hd := natDigits_range j.toNat c (by rw [hc]; exact List.mem_cons_self _ _)
    rw [← h1] at hd
    have : ('-').toNat = 45 := by decide
    omega
  · obtain ⟨c, cs, hc⟩ := List.exists_cons_of_ne_nil (natDigits_ne_nil i.toNat)
    rw [hc] at h
    injection h with h1 _
    have hd := natDigits_range i.toNat c (by rw [hc]; exact List.mem_cons_self _ _)
    rw [h1] at hd
    have : ('-').toNat = 45 := by decide
    omega
  · have := natDigits_inj h
    omega

/-! ## Lemmas: JSON serialisation of the sub-position list -/

theorem no_quote_append_inj :
    ∀ (xs : List Char), (∀ c ∈ xs, c ≠ '"') →
    ∀ (ys : List Char), (∀ c ∈ ys, c ≠ '"') →
    ∀ (s1 s2 : List Char), xs ++ '"' :: s1 = ys ++ '"' :: s2 → xs = ys ∧ s1 = s2 := by
  intro xs
  induction xs with
  | nil =>
    intro _ ys hy s1 s2 h
    cases ys with
    | nil => simpa using h
    | cons y ys' =>
      rw [List.nil_append, List.cons_append] at h
      injection h with h1 _
      exact absurd h1.symm (hy y (List.mem_cons_self _ _))
  | cons x xs' ih =>
    intro hx ys hy s1 s2 h
    cases ys with
    | nil =>
      rw [List.nil_append, List.cons_append] at h
      injection h with h1 _
      exact absurd h1 (hx x (List.mem_cons_self _ _))
    | cons y ys' =>
      rw [List.cons_append, List.cons_append] at h
      injection h with h1 h2
      obtain ⟨ha, hb⟩ := ih (fun c hc => hx c (List.mem_cons_of_mem _ hc)) ys'
        (fun c hc => hy c (List.mem_cons_of_mem _ hc)) s1 s2 h2
      exact ⟨by rw [h1, ha], hb⟩

theorem objChars_append_inj {o1 o2 : ReqInternalOption} {t1 t2 : List Char}
    (h : objChars o1 ++ t1 = objChars o2 ++ t2) : o1 = o2 ∧ t1 = t2 := by
  unfold objChars at h
  simp only [List.append_assoc, List.cons_append, List.singleton_append] at h
  have h1 := List.append_cancel_left h
  obtain ⟨hlo, h2⟩ := no_quote_append_inj _ (intChars_no_quote _) _ (intChars_no_quote _) _ _ h1
  have h3 := List.append_cancel_left h2
  obtain ⟨hup, h4⟩ := no_quote_append_inj _ (intChars_no_quote _) _ (intChars_no_quote _) _ _ h3
  have h5 := List.append_cancel_left h4
  obtain ⟨hliq, h6⟩ := no_quote_append_inj _ (intChars_no_quote _) _ (intChars_no_quote _) _ _ h5
  injection h6 with _ h7
  refine ⟨?_, h7⟩
  cases o1
  cases o2
  simp only [ReqInternalOption.mk.injEq]
  exact ⟨intChars_inj hlo, intChars_inj hup, intChars_inj hliq⟩

theorem objChars_head (o : ReqInternalOption) :
    ∃ rest, objChars o = '\x7b' :: rest := by
  exact ⟨_, rfl⟩

theorem optsTail_inj : ∀ l1 l2 : List ReqInternalOption, optsTail l1 = optsTail l2 → l1 = l2 := by
  intro l1
  induction l1 with
  | nil =>
    intro l2 h
    cases l2 with
    | nil => rfl
    | cons o r =>
      unfold optsTail at h
      injection h with h1 _
      exact absurd h1 (by decide)
  | cons o1 r1 ih =>
    intro l2 h
    cases l2 with
    | nil =>
      unfold optsTail at h
      injection h with h1 _
      exact absurd h1 (by decide)
    | cons o2 r2 =>
      unfold optsTail at h
      injection h with _ h2
      obtain ⟨ho, ht⟩ := objChars_append_inj h2
      rw [ho, ih r2 ht]

theorem optsChars_inj : ∀ l1 l2 : List ReqInternalOption, optsChars l1 = optsChars l2 → l1 = l2 := by
  intro l1 l2 h
  cases l1 with
  | nil =>
    cases l2 with
    | nil => rfl
    | cons o r =>
      unfold optsChars at h
      injection h with _ h2
      obtain ⟨rest, hrest⟩ := objChars_head o
      rw [hrest] at h2
      injection h2 with h3 _
      exact absurd h3 (by decide)
  | cons o1 r1 =>
    cases l2 with
    | nil =>
      unfold optsChars at h
      injection h with _ h2
      obtain ⟨rest, hrest⟩ := objChars_head o1
      rw [hrest] at h2
      injection h2 with h3 _
      exact absurd h3 (by decide)
    | cons o2 r2 =>
      unfold optsChars at h
      injection h with _ h2
      obtain ⟨ho, ht⟩ := objChars_append_inj h2
      rw [ho, optsTail_inj r1 r2 ht]

theorem stringData_inj : ∀ {s t : String}, s.data = t.data → s = t := by
  intro s t h
  cases s
  cases t
  cases h
  rfl

/-- C5: the profitability cache key separates requests — for every pair of
distinct requests that differ in a single field (chain id, market, pool,
position id, call flag) or only in the sub-position list (a reordering or
a change to any sub-position's tickLower, tickUpper or liquidity), the
computed cache keys differ, so the second request is a cache miss. -/
theorem cacheKey_sensitive (r1 r2 : GetRatesRequest)
    (hone : DiffersInAtMostOneField r1 r2) (hne : r1 ≠ r2) :
    generateProfitabilityCacheKey r1 ≠ generateProfitabilityCacheKey r2 := by
  intro hkey
  apply hne
  obtain ⟨c1, m1, p1, tk1, b1, o1⟩ := r1
  obtain ⟨c2, m2, p2, tk2, b2, o2⟩ := r2
  unfold generateProfitabilityCacheKey at hkey
  simp only at hkey
  simp only [GetRatesRequest.mk.injEq]
  rcases hone with ⟨h1, h2, h3, h4, h5⟩ | ⟨h1, h2, h3, h4, h5⟩ | ⟨h1, h2, h3, h4, h5⟩ |
    ⟨h1, h2, h3, h4, h5⟩ | ⟨h1, h2, h3, h4, h5⟩ | ⟨h1, h2, h3, h4, h5⟩ <;>
    simp only at h1 h2 h3 h4 h5 <;> subst h1 <;> subst h2 <;> subst h3 <;> subst h4 <;> subst h5
  · have hc := natDigits_inj (List.append_cancel_right hkey)
    simp [hc]
  · have h' := List.append_cancel_left hkey
    injection h' with _ h''
    have hm := stringData_inj (List.append_cancel_right h'')
    simp [hm]
  · have h' := List.append_cancel_left hkey
    injection h' with _ h''
    have h2' := List.append_cancel_left h''
    injection h2' with _ h2''
    have hp := stringData_inj (List.append_cancel_right h2'')
    simp [hp]
  · have h' := List.append_cancel_left hkey
    injection h' with _ h''
    have h2' := List.append_cancel_left h''
    injection h2' with _ h2''
    have h3' := List.append_cancel_left h2''
    injection h3' with _ h3''
    have ht := stringData_inj (List.append_cancel_right h3'')
    simp [ht]
  · have h' := List.append_cancel_left hkey
    injection h' with _ h''
    have h2' := List.append_cancel_left h''
    injection h2' with _ h2''
    have h3' := List.append_cancel_left h2''
    injection h3' with _ h3''
    have h4' := List.append_cancel_left h3''
    injection h4' with _ h4''
    cases b1 <;> cases b2 <;> simp_all [boolChars]
  · have h' := List.append_cancel_left hkey
    injection h' with _ h''
    have h2' := List.append_cancel_left h''
    injection h2' with _ h2''
    have h3' := List.append_cancel_left h2''
    injection h3' with _ h3''
    have h4' := List.append_cancel_left h3''
    injection h4' with _ h4''
    have h5' := List.append_cancel_left h4''
    injection h5' with _ h5''
    simp [optsChars_inj o1 o2 h5'']

/-- Concrete instantiation of `cacheKey_sensitive`: changing a single
sub-position's liquidity changes the cache key. -/
theorem cacheKey_sensitive_witness :
    generateProfitabilityCacheKey
        { chainId := 1, market := "m", pool := "p", tokenId := "7", isCall := true,
          internalOptions := [{ tickLower := -100, tickUpper := 100, liquidity := 5 }] } ≠
      generateProfitabilityCacheKey
        { chainId := 1, market := "m", pool := "p", tokenId := "7", isCall := true,
          internalOptions := [{ tickLower := -100, tickUpper := 100, liquidity := 6 }] } :=
  cacheKey_sensitive _ _
    (Or.inr (Or.inr (Or.inr (Or.inr (Or.inr ⟨rfl, rfl, rfl, rfl, rfl⟩)))))
    (by decide)

/-! ## Lemmas: rounding of the range calculator -/

theorem mulDivRoundingUp_ge (a b d : Nat) : a * b / d ≤ mulDivRoundingUp a b d := by
  unfold mulDivRoundingUp
  split <;> omega

theorem div_le_mulDivRoundingUp_one (x a : Nat) : x / a ≤ mulDivRoundingUp x 1 a := by
  unfold mulDivRoundingUp
  rw [Nat.mul_one]
  split <;> omega

theorem getAmount0Delta_ge_floor (sqrtA sqrtB L : Nat) :
    exactAmount0Floor sqrtA sqrtB L ≤ getAmount0Delta sqrtA sqrtB L true := by
  unfold exactAmount0Floor getAmount0Delta
  by_cases h : sqrtB < sqrtA <;> simp only [h, if_true, if_false, ite_true, ite_false]
  · calc L * 2 ^ 96 * (sqrtA - sqrtB) / (sqrtA * sqrtB)
        = L * 2 ^ 96 * (sqrtA - sqrtB) / sqrtA / sqrtB := by
          rw [Nat.div_div_eq_div_mul]
      _ ≤ mulDivRoundingUp (L * 2 ^ 96) (sqrtA - sqrtB) sqrtA / sqrtB :=
          Nat.div_le_div_right (mulDivRoundingUp_ge _ _ _)
      _ ≤ mulDivRoundingUp (mulDivRoundingUp (L * 2 ^ 96) (sqrtA - sqrtB) sqrtA) 1 sqrtB :=
          div_le_mulDivRoundingUp_one _ _
  · calc L * 2 ^ 96 * (sqrtB - sqrtA) / (sqrtB * sqrtA)
        = L * 2 ^ 96 * (sqrtB - sqrtA) / sqrtB / sqrtA := by
          rw [Nat.div_div_eq_div_mul]
      _ ≤ mulDivRoundingUp (L * 2 ^ 96) (sqrtB - sqrtA) sqrtB / sqrtA :=
          Nat.div_le_div_right (mulDivRoundingUp_ge _ _ _)
      _ ≤ mulDivRoundingUp (mulDivRoundingUp (L * 2 ^ 96) (sqrtB - sqrtA) sqrtB) 1 sqrtA :=
          div_le_mulDivRoundingUp_one _ _

theorem getAmount1Delta_ge_floor (sqrtA sqrtB L : Nat) :
    exactAmount1Floor sqrtA sqrtB L ≤ getAmount1Delta sqrtA sqrtB L true := by
  unfold exactAmount1Floor getAmount1Delta
  by_cases h : sqrtB < sqrtA <;> simp only [h, if_true, if_false, ite_true, ite_false] <;>
    exact mulDivRoundingUp_ge _ _ _

/-- C8: for every tick range within the supported bounds and every
positive liquidity, both token amounts computed by the range calculator
(the rounded-up delta formulas on the tick-derived square-root prices) are
at least the value of the closed-form delta formulas evaluated in exact
arithmetic and truncated — the implementation rounds up, never down. -/
theorem rangeCalculator_rounds_up (tickLower tickUpper : Int) (L : Nat)
    (_hlo : MIN_TICK ≤ tickLower) (_hlt : tickLower < tickUpper) (_hhi : tickUpper ≤ MAX_TICK)
    (_hL : 0 < L) :
    exactAmount0Floor (sqrtRatioAtTickChain tickLower) (sqrtRatioAtTickChain tickUpper) L ≤
        getAmount0Delta (sqrtRatioAtTickChain tickLower) (sqrtRatioAtTickChain tickUpper) L true ∧
      exactAmount1Floor (sqrtRatioAtTickChain tickLower) (sqrtRatioAtTickChain tickUpper) L ≤
        getAmount1Delta (sqrtRatioAtTickChain tickLower) (sqrtRatioAtTickChain tickUpper) L true :=
  ⟨getAmount0Delta_ge_floor _ _ _, getAmount1Delta_ge_floor _ _ _⟩

/-- Concrete instantiation of `rangeCalculator_rounds_up` at the range
[-100, 100] with liquidity 1000000. -/
theorem rangeCalculator_rounds_up_witness :
    exactAmount0Floor (sqrtRatioAtTickChain (-100)) (sqrtRatioAtTickChain 100) 1000000 ≤
      getAmount0Delta (sqrtRatioAtTickChain (-100)) (sqrtRatioAtTickChain 100) 1000000 true :=
  (rangeCalculator_rounds_up (-100) 100 1000000 (by decide) (by decide) (by decide)
    (by decide)).1

/-! ## Claim: orchestrator lifecycle -/

/-- C9: the control loop never terminates because of a processing error —
a schedule of iterations containing thrown (and caught) bodies is run to
completion with one error log per thrown body as long as no `stop()`
arrives; the loop's running flag only goes down through a `stop()` in the
schedule; and `start()` on an already-running engine performs no iteration
and only adds a warning. -/
theorem orchestrator_loop_lifecycle :
    (∀ (sched : List LoopCycle) (s : EngineState), s.isRunning = true →
        (∀ c ∈ sched, c.stopRequested = false) →
        (runLoop s sched).iterations = s.iterations + sched.length ∧
          (runLoop s sched).isRunning = true ∧
          (runLoop s sched).loopErrorLogs =
            s.loopErrorLogs + (sched.filter (fun c => c.event = LoopEvent.iterThrow)).length) ∧
      (∀ (sched : List LoopCycle) (s : EngineState),
        (runLoop s sched).isRunning = false →
        s.isRunning = false ∨ ∃ c ∈ sched, c.stopRequested = true) ∧
      (∀ (sched : List LoopCycle) (s : EngineState), s.isRunning = true →
        engineStart s sched = { s with warnLogs := s.warnLogs + 1 }) := by
  refine ⟨?_, ?_, ?_⟩
  · intro sched
    induction sched with
    | nil => intro s hrun _; simp [runLoop, hrun]
    | cons c rest ih =>
      intro s hrun hstop
      have hc : c.stopRequested = false := hstop c (List.mem_cons_self _ _)
      have hrc : (runCycle s c).isRunning = true := by simp [runCycle, hc, hrun]
      obtain ⟨hi, hr, he⟩ := ih (runCycle s c)
        hrc (fun c' h => hstop c' (List.mem_cons_of_mem _ h))
      unfold runLoop
      rw [hrun, if_pos rfl]
      refine ⟨?_, hr, ?_⟩
      · rw [hi]; simp [runCycle]; omega
      · rw [he]
        by_cases hev : c.event = LoopEvent.iterThrow
        · simp [runCycle, hev, List.filter]
          omega
        · simp [runCycle, hev, List.filter]
  · intro sched
    induction sched with
    | nil => intro s h; exact Or.inl h
    | cons c rest ih =>
      intro s h
      unfold runLoop at h
      by_cases hr : s.isRunning
      · rw [hr, if_pos rfl] at h
        rcases ih (runCycle s c) h with h1 | ⟨c', hc', hs'⟩
        · simp [runCycle] at h1
          by_cases hstop : c.stopRequested
          · exact Or.inr ⟨c, List.mem_cons_self _ _, hstop⟩
          · exact Or.inl (h1 (by simpa using hstop))
        · exact Or.inr ⟨c', List.mem_cons_of_mem _ hc', hs'⟩
      · exact Or.inl (by simpa using hr)
  · intro sched s hrun
    simp [engineStart, hrun]

/-- Concrete instantiation of `orchestrator_loop_lifecycle`: a schedule of
two iterations whose first body throws is still run to completion. -/
theorem orchestrator_loop_lifecycle_witness :
    (runLoop { isRunning := true, iterations := 0, loopErrorLogs := 0, warnLogs := 0 }
        [{ event := LoopEvent.iterThrow, stopRequested := false },
         { event := LoopEvent.iterOk, stopRequested := false }]).iterations = 0 + 2 :=
  (orchestrator_loop_lifecycle.1
    [{ event := LoopEvent.iterThrow, stopRequested := false },
     { event := LoopEvent.iterOk, stopRequested := false }]
    { isRunning := true, iterations := 0, loopErrorLogs := 0, warnLogs := 0 }
    rfl (by decide)).1

/-! ## Claim: settlement liquidity -/

/-- C1 counterexample: for an expired option whose sub-position has
liquidityAtOpen 5, liquidityExercised 3 and liquiditySettled 4, the
settlement liquidity placed into the settleOption parameters is the
negative value −2 — it is passed on as a negative amount, not reported as
zero. -/
theorem settlement_negative_counterexample :
    (handleExpiredOptionParams
        { tokenId := "1", market := "m", isCall := true, opTickArrayLen := 1, chainId := 1,
          internalOptions := [{ pool := "p", liquidityAtOpen := 5, liquidityExercised := 3,
                                liquiditySettled := 4, liquidityAtLive := 0,
                                tickLower := -10, tickUpper := 10 }] }
        500 "s").liquidityToSettle = [-2] ∧ ((-2 : Int) < 0) := by
  constructor
  · rfl
  · decide

/-- C1 amended: each per-sub-position settlement liquidity placed into the
settleOption parameters equals the raw difference liquidityAtOpen −
liquidityExercised − liquiditySettled, with no floor at zero — it is
negative exactly when exercised + settled exceed the at-open figure. -/
theorem settlement_liquidity_raw_difference (option : EngineOption) (poolFee : Nat)
    (swapperAddress : String) (i : Nat) (o : EngineInternalOption)
    (h : option.internalOptions[i]? = some o) :
    (handleExpiredOptionParams option poolFee swapperAddress).liquidityToSettle[i]? =
        some (o.liquidityAtOpen - o.liquidityExercised - o.liquiditySettled) ∧
      (o.liquidityAtOpen - o.liquidityExercised - o.liquiditySettled < 0 ↔
        o.liquidityAtOpen < o.liquidityExercised + o.liquiditySettled) := by
  constructor
  · simp [handleExpiredOptionParams, settleLiquidities, h]
  · omega

/-- Concrete instantiation of `settlement_liquidity_raw_difference`. -/
theorem settlement_liquidity_raw_difference_witness :
    (handleExpiredOptionParams
        { tokenId := "2", market := "m", isCall := false, opTickArrayLen := 1, chainId := 1,
          internalOptions := [{ pool := "p", liquidityAtOpen := 10, liquidityExercised := 2,
                                liquiditySettled := 3, liquidityAtLive := 5,
                                tickLower := -10, tickUpper := 10 }] }
        500 "s").liquidityToSettle[0]? = some (10 - 2 - 3) :=
  (settlement_liquidity_raw_difference
    { tokenId := "2", market := "m", isCall := false, opTickArrayLen := 1, chainId := 1,
      internalOptions := [{ pool := "p", liquidityAtOpen := 10, liquidityExercised := 2,
                            liquiditySettled := 3, liquidityAtLive := 5,
                            tickLower := -10, tickUpper := 10 }] }
    500 "s" 0
    { pool := "p", liquidityAtOpen := 10, liquidityExercised := 2,
      liquiditySettled := 3, liquidityAtLive := 5, tickLower := -10, tickUpper := 10 }
    (by decide)).1

/-! ## Claim: caching behaviour of `calculateOptionProfitability` -/

/-- C4: when `calculate` has been invoked once and the stored entry for
the same request is still within the TTL at a second invocation, the
second call returns exactly the stored first result with the state
untouched, and — since the conclusion holds for every environment with
that clock reading, in particular for arbitrary network oracles — performs
no network access (no metadata fetch and no quote batch). -/
theorem calculate_cache_idempotent (st : CalcState) (env1 : CalcEnv) (req : GetRatesRequest)
    (r1 : GetRatesResponse) (st1 : CalcState) (ts : Nat)
    (_hfirst : calculateOptionProfitability st env1 req = (r1, st1))
    (hstored : assocFind st1.profitabilityCache (generateProfitabilityCacheKey req) =
      some (ts, r1)) :
    ∀ env2 : CalcEnv, isCacheValid env2.now ts = true →
      calculateOptionProfitability st1 env2 req = (r1, st1) := by
  intro env2 hvalid
  have hh : cacheHit st1 env2 req = some r1 := by
    unfold cacheHit
    rw [hstored]
    simp [hvalid]
  unfold calculateOptionProfitability
  rw [hh]

/-- Concrete instantiation of `calculate_cache_idempotent`: a first call
on an empty state stores its result, and an immediate second call returns
it unchanged. -/
theorem calculate_cache_idempotent_witness :
    calculateOptionProfitability
        { profitabilityCache :=
            [(generateProfitabilityCacheKey
                { chainId := 1, market := "m", pool := "m", tokenId := "7", isCall := true,
                  internalOptions := [] },
              (0, { tokenId := "7", totalProfit := 0, isProfitable := false, details := [],
                    exerciseParams := { optionId := "7", swapper := [], swapData := [],
                                        liquidityToExercise := [] } }))],
          poolMarketInfoCache :=
            [(generatePoolMarketCacheKey 1 "m" "m",
              { poolFee := 500, callAsset := "c", putAsset := "p", token0 := "c",
                token1 := "p", primePool := "m" })] }
        { now := 0, rpcUrl := .ok "u", primePool := .ok "m",
          metaCalls := .ok { fee := .ok 500, callAsset := .ok "c", putAsset := .ok "p",
                             token0 := .ok "c", token1 := .ok "p" },
          quoterAddress := .ok "q", quoteCalls := .ok [], encodeOk := true,
          swapRouterSwapper := .ok "s" }
        { chainId := 1, market := "m", pool := "m", tokenId := "7", isCall := true,
          internalOptions := [] } =
      ({ tokenId := "7", totalProfit := 0, isProfitable := false, details := [],
         exerciseParams := { optionId := "7", swapper := [], swapData := [],
                             liquidityToExercise := [] } },
       { profitabilityCache :=
           [(generateProfitabilityCacheKey
               { chainId := 1, market := "m", pool := "m", tokenId := "7", isCall := true,
                 internalOptions := [] },
             (0, { tokenId := "7", totalProfit := 0, isProfitable := false, details := [],
                   exerciseParams := { optionId := "7", swapper := [], swapData := [],
                                       liquidityToExercise := [] } }))],
         poolMarketInfoCache :=
           [(generatePoolMarketCacheKey 1 "m" "m",
             { poolFee := 500, callAsset := "c", putAsset := "p", token0 := "c",
               token1 := "p", primePool := "m" })] }) :=
  calculate_cache_idempotent
    { profitabilityCache := [], poolMarketInfoCache := [] }
    { now := 0, rpcUrl := .ok "u", primePool := .ok "m",
      metaCalls := .ok { fee := .ok 500, callAsset := .ok "c", putAsset := .ok "p",
                         token0 := .ok "c", token1 := .ok "p" },
      quoterAddress := .ok "q", quoteCalls := .ok [], encodeOk := true,
      swapRouterSwapper := .ok "s" }
    { chainId := 1, market := "m", pool := "m", tokenId := "7", isCall := true,
      internalOptions := [] }
    _ _ 0 rfl rfl _ rfl

/-- C3: the evaluator's `calculate` never raises — whenever the body of
the `try` block throws (metadata resolution, quote batching, or any other
step inside it), the call returns the safe default: totalProfit 0, not
profitable, empty details, empty swapper and swapData arrays, and a
liquidity-to-exercise array with one zero entry per requested
sub-position. -/
theorem calculate_catch_shape (st : CalcState) (env : CalcEnv) (req : GetRatesRequest)
    (hmiss : cacheHit st env req = none)
    (hthrown : (calculateBody st.poolMarketInfoCache env req).1.isThrown = true) :
    (calculateOptionProfitability st env req).1.totalProfit = 0 ∧
      (calculateOptionProfitability st env req).1.isProfitable = false ∧
      (calculateOptionProfitability st env req).1.details = [] ∧
      (calculateOptionProfitability st env req).1.exerciseParams.swapper = [] ∧
      (calculateOptionProfitability st env req).1.exerciseParams.swapData = [] ∧
      (calculateOptionProfitability st env req).1.exerciseParams.liquidityToExercise =
        List.replicate req.internalOptions.length 0 := by
  unfold calculateOptionProfitability
  rw [hmiss]
  rcases hb : calculateBody st.poolMarketInfoCache env req with ⟨outcome, pc'⟩
  rw [hb] at hthrown
  cases outcome with
  | success r => simp [CalcOutcome.isThrown] at hthrown
  | encodeFail r => simp [CalcOutcome.isThrown] at hthrown
  | noSwapper r => simp [CalcOutcome.isThrown] at hthrown
  | thrown => simp [catchResponse]

/-- Concrete instantiation of `calculate_catch_shape`: the metadata
multicall itself throwing yields the safe default with a two-entry zero
liquidity list. -/
theorem calculate_catch_shape_witness :
    (calculateOptionProfitability
        { profitabilityCache := [], poolMarketInfoCache := [] }
        { now := 0, rpcUrl := .ok "u", primePool := .ok "m", metaCalls := .error (),
          quoterAddress := .ok "q", quoteCalls := .error (), encodeOk := true,
          swapRouterSwapper := .ok "s" }
        { chainId := 1, market := "m", pool := "m", tokenId := "7", isCall := true,
          internalOptions := [{ tickLower := -100, tickUpper := 100, liquidity := 5 },
                              { tickLower := -200, tickUpper := 200, liquidity := 6 }] }).1.details
        = [] :=
  (calculate_catch_shape
    { profitabilityCache := [], poolMarketInfoCache := [] }
    { now := 0, rpcUrl := .ok "u", primePool := .ok "m", metaCalls := .error (),
      quoterAddress := .ok "q", quoteCalls := .error (), encodeOk := true,
      swapRouterSwapper := .ok "s" }
    { chainId := 1, market := "m", pool := "m", tokenId := "7", isCall := true,
      internalOptions := [{ tickLower := -100, tickUpper := 100, liquidity := 5 },
                          { tickLower := -200, tickUpper := 200, liquidity := 6 }] }
    rfl rfl).2.2.1

/-- C10: the profitability cache is written only on the fully successful
path — whenever the body does not reach the successful return (a caught
exception, a swap-data encoding failure, or a missing swapper address),
the profitability cache is left exactly as it was, so a degraded result is
never served as a later cache hit. -/
theorem cache_store_only_on_success (st : CalcState) (env : CalcEnv) (req : GetRatesRequest)
    (hmiss : cacheHit st env req = none)
    (hns : (calculateBody st.poolMarketInfoCache env req).1.isSuccess = false) :
    (calculateOptionProfitability st env req).2.profitabilityCache = st.profitabilityCache := by
  unfold calculateOptionProfitability
  rw [hmiss]
  rcases hb : calculateBody st.poolMarketInfoCache env req with ⟨outcome, pc'⟩
  rw [hb] at hns
  cases outcome with
  | success r => simp [CalcOutcome.isSuccess] at hns
  | encodeFail r => rfl
  | noSwapper r => rfl
  | thrown => rfl

/-- Concrete instantiation of `cache_store_only_on_success`: a swap-data
encoding failure returns without storing anything. -/
theorem cache_store_only_on_success_witness :
    (calculateOptionProfitability
        { profitabilityCache := [], poolMarketInfoCache := [] }
        { now := 0, rpcUrl := .ok "u", primePool := .ok "m",
          metaCalls := .ok { fee := .ok 500, callAsset := .ok "c", putAsset := .ok "p",
                             token0 := .ok "c", token1 := .ok "p" },
          quoterAddress := .ok "q", quoteCalls := .ok [], encodeOk := false,
          swapRouterSwapper := .ok "s" }
        { chainId := 1, market := "m", pool := "m", tokenId := "7", isCall := true,
          internalOptions := [{ tickLower := -100, tickUpper := 100, liquidity := 0 }] }
      ).2.profitabilityCache = [] :=
  cache_store_only_on_success
    { profitabilityCache := [], poolMarketInfoCache := [] }
    { now := 0, rpcUrl := .ok "u", primePool := .ok "m",
      metaCalls := .ok { fee := .ok 500, callAsset := .ok "c", putAsset := .ok "p",
                         token0 := .ok "c", token1 := .ok "p" },
      quoterAddress := .ok "q", quoteCalls := .ok [], encodeOk := false,
      swapRouterSwapper := .ok "s" }
    { chainId := 1, market := "m", pool := "m", tokenId := "7", isCall := true,
      internalOptions := [{ tickLower := -100, tickUpper := 100, liquidity := 0 }] }
    rfl rfl

/-! ## Lemmas: structure of the scan and result-processing loops -/

theorem scanOptions_spec (quoterAddr tokenIn tokenOut : String) (poolFee : Nat) (am0 : Bool) :
    ∀ (opts : List ReqInternalOption) (i0 : Nat) (qs : List QuoteRequest) (ds : List OptionData),
      scanOptions quoterAddr tokenIn tokenOut poolFee am0 opts i0 = .ok (qs, ds) →
      ds.length = opts.length ∧
        qs.length = (opts.filter (fun o => 0 < o.liquidity)).length ∧
        (∀ j, ((ds.take j).filter (fun d => d.skipQuote = false)).length =
            ((opts.take j).filter (fun o => 0 < o.liquidity)).length) ∧
        (∀ j o, opts[j]? = some o →
          (o.liquidity ≤ 0 → ds[j]? = some (skipOptionData (i0 + j))) ∧
          (0 < o.liquidity → ∃ sqrtA sqrtB,
            getSqrtRatioAtTick o.tickLower = .ok sqrtA ∧
              getSqrtRatioAtTick o.tickUpper = .ok sqrtB ∧
              ds[j]? = some (scannedOptionData (i0 + j) o.liquidity sqrtA sqrtB am0))) := by
  intro opts
  induction opts with
  | nil =>
    intro i0 qs ds h
    simp only [scanOptions, Except.ok.injEq, Prod.mk.injEq] at h
    obtain ⟨h1, h2⟩ := h
    subst h1
    subst h2
    exact ⟨rfl, rfl, by simp, fun j o hj => by simp at hj⟩
  | cons o rest ih =>
    intro i0 qs ds h
    simp only [scanOptions] at h
    by_cases hl : o.liquidity ≤ 0
    · rw [if_pos hl] at h
      have hnot : ¬ (0 < o.liquidity) := by omega
      rcases hrec : scanOptions quoterAddr tokenIn tokenOut poolFee am0 rest (i0 + 1)
        with e | ⟨qs', ds'⟩
      · rw [hrec] at h
        cases h
      · simp only [hrec, Except.ok.injEq, Prod.mk.injEq] at h
        obtain ⟨h1, h2⟩ := h
        subst h1
        subst h2
        obtain ⟨hlen, hql, hcnt, hidx⟩ := ih (i0 + 1) qs' ds' hrec
        refine ⟨by simp [hlen], ?_, ?_, ?_⟩
        · rw [hql]
          simp [List.filter_cons, hnot]
        · intro j
          cases j with
          | zero => simp
          | succ j =>
            simp only [List.take_succ_cons, List.filter_cons]
            simp [hnot]
            simpa using hcnt j
        · intro j o' hj
          cases j with
          | zero =>
            simp only [List.getElem?_cons_zero, Option.some.injEq] at hj
            subst hj
            refine ⟨fun _ => by simp [skipOptionData], fun hpos => absurd hpos hnot⟩
          | succ j =>
            simp only [List.getElem?_cons_succ] at hj
            obtain ⟨hskip, hpos⟩ := hidx j o' hj
            have heq : i0 + 1 + j = i0 + (j + 1) := by omega
            constructor
            · intro hle
              have := hskip hle
              rw [heq] at this
              simpa using this
            · intro hp
              obtain ⟨sa, sb, hA, hB, hds⟩ := hpos hp
              rw [heq] at hds
              exact ⟨sa, sb, hA, hB, by simpa using hds⟩
    · rw [if_neg hl] at h
      have hpos : 0 < o.liquidity := by omega
      rcases hA : getSqrtRatioAtTick o.tickLower with e | sqrtA
      · rw [hA] at h
        cases h
      · rw [hA] at h
        rcases hB : getSqrtRatioAtTick o.tickUpper with e | sqrtB
        · rw [hB] at h
          cases h
        · rw [hB] at h
          rcases hrec : scanOptions quoterAddr tokenIn tokenOut poolFee am0 rest (i0 + 1)
            with e | ⟨qs', ds'⟩
          · rw [hrec] at h
            cases h
          · simp only [hrec, Except.ok.injEq, Prod.mk.injEq] at h
            obtain ⟨h1, h2⟩ := h
            subst h1
            subst h2
            obtain ⟨hlen, hql, hcnt, hidx⟩ := ih (i0 + 1) qs' ds' hrec
            refine ⟨by simp [hlen], ?_, ?_, ?_⟩
            · rw [List.filter_cons]
              simp [hpos, hql]
            · intro j
              cases j with
              | zero => simp
              | succ j =>
                simp only [List.take_succ_cons, List.filter_cons]
                simp [hpos]
                simpa using hcnt j
            · intro j o' hj
              cases j with
              | zero =>
                simp only [List.getElem?_cons_zero, Option.some.injEq] at hj
                subst hj
                refine ⟨fun hle => absurd hpos (by omega),
                  fun _ => ⟨sqrtA, sqrtB, hA, hB, by simp [scannedOptionData]⟩⟩
              | succ j =>
                simp only [List.getElem?_cons_succ] at hj
                obtain ⟨hskip, hpos'⟩ := hidx j o' hj
                have heq : i0 + 1 + j = i0 + (j + 1) := by omega
                constructor
                · intro hle
                  have := hskip hle
                  rw [heq] at this
                  simpa using this
                · intro hp
                  obtain ⟨sa, sb, hA', hB', hds⟩ := hpos' hp
                  rw [heq] at hds
                  exact ⟨sa, sb, hA', hB', by simpa using hds⟩

theorem processResults_spec (qrs : List (Except Unit (Int × Int × Int × Int))) :
    ∀ (ods : List OptionData) (qi : Nat) (total t : Int) (ds : List ProfitabilityDetail),
      processResults qrs ods qi total = .ok (t, ds) →
      ds.length = ods.length ∧
        t = total + (ds.map (fun d => max d.profit 0)).sum ∧
        (∀ j od, ods[j]? = some od →
          (od.skipQuote = true → ds[j]? = some (zeroDetail od.index)) ∧
          (od.skipQuote = false → ∃ tup,
            qrs[qi + ((ods.take j).filter (fun d => d.skipQuote = false)).length]? = some tup ∧
              (∀ e, tup = .error e → ds[j]? = some (failedQuoteDetail od)) ∧
              (∀ q4, tup = .ok q4 → ds[j]? = some (quotedDetail od q4.1)))) := by
  intro ods
  induction ods with
  | nil =>
    intro qi total t ds h
    simp only [processResults, Except.ok.injEq, Prod.mk.injEq] at h
    obtain ⟨h1, h2⟩ := h
    subst h1
    subst h2
    exact ⟨rfl, by simp, fun j od hj => by simp at hj⟩
  | cons od rest ih =>
    intro qi total t ds h
    simp only [processResults] at h
    by_cases hs : od.skipQuote
    · rw [if_pos hs] at h
      rcases hrec : processResults qrs rest qi total with e | ⟨t', ds'⟩
      · rw [hrec] at h
        cases h
      · simp only [hrec, Except.ok.injEq, Prod.mk.injEq] at h
        obtain ⟨h1, h2⟩ := h
        subst h1
        subst h2
        obtain ⟨hlen, hsum, hidx⟩ := ih qi total t' ds' hrec
        refine ⟨by simp [hlen], ?_, ?_⟩
        · rw [hsum]
          simp [zeroDetail]
        · intro j od' hj
          cases j with
          | zero =>
            simp only [List.getElem?_cons_zero, Option.some.injEq] at hj
            subst hj
            exact ⟨fun _ => by simp, fun hns => absurd hs (by simp [hns])⟩
          | succ j =>
            simp only [List.getElem?_cons_succ] at hj
            obtain ⟨h1, h2⟩ := hidx j od' hj
            refine ⟨fun hsk => by simpa using h1 hsk, fun hns => ?_⟩
            obtain ⟨tup, htup, hcase⟩ := h2 hns
            refine ⟨tup, ?_, fun e he => by simpa using hcase.1 e he,
              fun q4 hq4 => by simpa using hcase.2 q4 hq4⟩
            simpa [List.take_succ_cons, List.filter_cons, hs] using htup
    · rw [if_neg hs] at h
      rcases hq : qrs[qi]? with _ | tup
      · simp only [hq] at h
        cases h
      · rcases tup with e | q4
        · simp only [hq] at h
          rcases hrec : processResults qrs rest (qi + 1) total with e' | ⟨t', ds'⟩
          · rw [hrec] at h
            cases h
          · simp only [hrec, Except.ok.injEq, Prod.mk.injEq] at h
            obtain ⟨h1, h2⟩ := h
            subst h1
            subst h2
            obtain ⟨hlen, hsum, hidx⟩ := ih (qi + 1) total t' ds' hrec
            refine ⟨by simp [hlen], ?_, ?_⟩
            · rw [hsum]
              simp [failedQuoteDetail]
            · intro j od' hj
              cases j with
              | zero =>
                simp only [List.getElem?_cons_zero, Option.some.injEq] at hj
                subst hj
                refine ⟨fun hsk => absurd hsk (by simp [hs]), fun _ => ⟨.error e, ?_, ?_, ?_⟩⟩
                · simpa using hq
                · intro e' he'
                  simp
                · intro q4 hq4
                  cases hq4
              | succ j =>
                simp only [List.getElem?_cons_succ] at hj
                obtain ⟨h1, h2⟩ := hidx j od' hj
                refine ⟨fun hsk => by simpa using h1 hsk, fun hns => ?_⟩
                obtain ⟨tup', htup', hcase⟩ := h2 hns
                refine ⟨tup', ?_, fun e' he' => by simpa using hcase.1 e' he',
                  fun q4 hq4 => by simpa using hcase.2 q4 hq4⟩
                have hcnteq : qi + 1 + ((rest.take j).filter
                    (fun d => d.skipQuote = false)).length =
                    qi + (((od :: rest).take (j + 1)).filter
                      (fun d => d.skipQuote = false)).length := by
                  simp only [List.take_succ_cons, List.filter_cons]
                  simp [hs]
                  omega
                rw [hcnteq] at htup'
                exact htup'
        · rcases q4 with ⟨amountOut, x2, x3, x4⟩
          simp only [hq] at h
          rcases hrec : processResults qrs rest (qi + 1)
              (if 0 < amountOut - od.amountToRefill then total + (amountOut - od.amountToRefill)
               else total) with e' | ⟨t', ds'⟩
          · rw [hrec] at h
            cases h
          · simp only [hrec, Except.ok.injEq, Prod.mk.injEq] at h
            obtain ⟨h1, h2⟩ := h
            subst h1
            subst h2
            obtain ⟨hlen, hsum, hidx⟩ := ih (qi + 1) _ t' ds' hrec
            refine ⟨by simp [hlen], ?_, ?_⟩
            · rw [hsum]
              simp only [List.map_cons, List.sum_cons, quotedDetail]
              by_cases hp : 0 < amountOut - od.amountToRefill
              · rw [if_pos hp]
                have hm : max (amountOut - od.amountToRefill) 0 = amountOut - od.amountToRefill := by
                  omega
                rw [hm]
                ring
              · rw [if_neg hp]
                have hm : max (amountOut - od.amountToRefill) 0 = 0 := by omega
                rw [hm]
                ring
            · intro j od' hj
              cases j with
              | zero =>
                simp only [List.getElem?_cons_zero, Option.some.injEq] at hj
                subst hj
                refine ⟨fun hsk => absurd hsk (by simp [hs]),
                  fun _ => ⟨.ok (amountOut, x2, x3, x4), ?_, ?_, ?_⟩⟩
                · simpa using hq
                · intro e' he'
                  cases he'
                · intro q4 hq4
                  cases hq4
                  simp
              | succ j =>
                simp only [List.getElem?_cons_succ] at hj
                obtain ⟨h1, h2⟩ := hidx j od' hj
                refine ⟨fun hsk => by simpa using h1 hsk, fun hns => ?_⟩
                obtain ⟨tup', htup', hcase⟩ := h2 hns
                refine ⟨tup', ?_, fun e' he' => by simpa using hcase.1 e' he',
                  fun q4 hq4 => by simpa using hcase.2 q4 hq4⟩
                have hcnteq : qi + 1 + ((rest.take j).filter
                    (fun d => d.skipQuote = false)).length =
                    qi + (((od :: rest).take (j + 1)).filter
                      (fun d => d.skipQuote = false)).length := by
                  simp only [List.take_succ_cons, List.filter_cons]
                  simp [hs]
                  omega
                rw [hcnteq] at htup'
                exact htup'

/-! ## Lemmas: structure of `calculateBody` and the dispatcher -/

theorem calculateBody_not_thrown_spec (pc : List (List Char × PoolMarketInfo)) (env : CalcEnv)
    (req : GetRatesRequest) (outcome : CalcOutcome) (pc' : List (List Char × PoolMarketInfo))
    (hb : calculateBody pc env req = (outcome, pc'))
    (hnt : outcome.isThrown = false) :
    ∃ info quoterAddr quoteReqs ods qres total details,
      getPoolMarketInfo pc env req.chainId req.market req.pool = (.ok info, pc') ∧
        env.quoterAddress = .ok quoterAddr ∧
        scanOptions quoterAddr (assetToUse req info) (assetToGet req info) info.poolFee
            (isAmount0 req info) req.internalOptions 0 = .ok (quoteReqs, ods) ∧
        (if 0 < quoteReqs.length then env.quoteCalls else .ok []) = .ok qres ∧
        processResults qres ods 0 0 = .ok (total, details) ∧
        (∀ r, outcome.response? = some r →
          r.tokenId = req.tokenId ∧ r.totalProfit = total ∧
            r.isProfitable = decide (0 < total) ∧ r.details = details) ∧
        (∀ r, outcome = .success r →
          r.exerciseParams.liquidityToExercise =
            details.map (fun d => if d.isProfitable then d.liquidityAvailable else 0)) := by
  unfold calculateBody at hb
  rcases hrpc : env.rpcUrl with e | u
  · simp only [hrpc] at hb
    obtain ⟨h1, _⟩ := Prod.mk.injEq .. ▸ hb
    rw [← h1] at hnt
    simp [CalcOutcome.isThrown] at hnt
  · simp only [hrpc] at hb
    rcases hpmi : getPoolMarketInfo pc env req.chainId req.market req.pool with ⟨res, pc2⟩
    rcases res with e | info
    · simp only [hpmi] at hb
      obtain ⟨h1, _⟩ := Prod.mk.injEq .. ▸ hb
      rw [← h1] at hnt
      simp [CalcOutcome.isThrown] at hnt
    · simp only [hpmi] at hb
      rcases hqa : env.quoterAddress with e | qaddr
      · simp only [hqa] at hb
        obtain ⟨h1, _⟩ := Prod.mk.injEq .. ▸ hb
        rw [← h1] at hnt
        simp [CalcOutcome.isThrown] at hnt
      · simp only [hqa] at hb
        rcases hscan : scanOptions qaddr (assetToUse req info) (assetToGet req info)
            info.poolFee (isAmount0 req info) req.internalOptions 0 with e | ⟨quoteReqs, ods⟩
        · simp only [hscan] at hb
          obtain ⟨h1, _⟩ := Prod.mk.injEq .. ▸ hb
          rw [← h1] at hnt
          simp [CalcOutcome.isThrown] at hnt
        · simp only [hscan] at hb
          rcases hqc : (if 0 < quoteReqs.length then env.quoteCalls else Except.ok [])
            with e | qres
          · simp only [hqc] at hb
            obtain ⟨h1, _⟩ := Prod.mk.injEq .. ▸ hb
            rw [← h1] at hnt
            simp [CalcOutcome.isThrown] at hnt
          · simp only [hqc] at hb
            rcases hproc : processResults qres ods 0 0 with e | ⟨total, details⟩
            · simp only [hproc] at hb
              obtain ⟨h1, _⟩ := Prod.mk.injEq .. ▸ hb
              rw [← h1] at hnt
              simp [CalcOutcome.isThrown] at hnt
            · simp only [hproc] at hb
              by_cases henc : env.encodeOk = false
              · rw [if_pos henc] at hb
                obtain ⟨h1, h2⟩ := Prod.mk.injEq .. ▸ hb
                refine ⟨info, qaddr, quoteReqs, ods, qres, total, details,
                  ?_, rfl, hscan, hqc, hproc, ?_, ?_⟩
                · rw [h2]
                · intro r hr
                  rw [← h1] at hr
                  simp only [CalcOutcome.response?, Option.some.injEq] at hr
                  subst hr
                  exact ⟨rfl, rfl, rfl, rfl⟩
                · intro r hr
                  rw [← h1] at hr
                  cases hr
              · rw [if_neg henc] at hb
                rcases hsw : env.swapRouterSwapper with e | addr
                · simp only [hsw] at hb
                  obtain ⟨h1, _⟩ := Prod.mk.injEq .. ▸ hb
                  rw [← h1] at hnt
                  simp [CalcOutcome.isThrown] at hnt
                · simp only [hsw] at hb
                  by_cases haddr : addr = ""
                  · rw [if_pos haddr] at hb
                    obtain ⟨h1, h2⟩ := Prod.mk.injEq .. ▸ hb
                    refine ⟨info, qaddr, quoteReqs, ods, qres, total, details,
                      ?_, rfl, hscan, hqc, hproc, ?_, ?_⟩
                    · rw [h2]
                    · intro r hr
                      rw [← h1] at hr
                      simp only [CalcOutcome.response?, Option.some.injEq] at hr
                      subst hr
                      exact ⟨rfl, rfl, rfl, rfl⟩
                    · intro r hr
                      rw [← h1] at hr
                      cases hr
                  · rw [if_neg haddr] at hb
                    obtain ⟨h1, h2⟩ := Prod.mk.injEq .. ▸ hb
                    refine ⟨info, qaddr, quoteReqs, ods, qres, total, details,
                      ?_, rfl, hscan, hqc, hproc, ?_, ?_⟩
                    · rw [h2]
                    · intro r hr
                      rw [← h1] at hr
                      simp only [CalcOutcome.response?, Option.some.injEq] at hr
                      subst hr
                      exact ⟨rfl, rfl, rfl, rfl⟩
                    · intro r hr
                      rw [← h1] at hr
                      cases hr
                      rfl

theorem calculate_response_of_body (st : CalcState) (env : CalcEnv) (req : GetRatesRequest)
    (outcome : CalcOutcome) (pc' : List (List Char × PoolMarketInfo))
    (hmiss : cacheHit st env req = none)
    (hb : calculateBody st.poolMarketInfoCache env req = (outcome, pc'))
    (r : GetRatesResponse) (hr : outcome.response? = some r) :
    (calculateOptionProfitability st env req).1 = r := by
  unfold calculateOptionProfitability
  rw [hmiss, hb]
  cases outcome <;> simp_all [CalcOutcome.response?]

theorem getPoolMarketInfo_meta_failure (cache : List (List Char × PoolMarketInfo))
    (env : CalcEnv) (chainId : Nat) (market pool : String) (m : MetaCallResults)
    (hmiss : assocFind cache (generatePoolMarketCacheKey chainId market pool) = none)
    (hmc : env.metaCalls = .ok m) (hfail : metaHasFailure m = true) :
    getPoolMarketInfo cache env chainId market pool = (.error (), cache) := by
  unfold getPoolMarketInfo
  simp only [hmiss]
  rcases hpp : (if market = pool then Except.ok pool else env.primePool) with e | v
  · simp only [hpp]
  · simp only [hpp, hmc]
    rcases m with ⟨f, ca, pa, t0, t1⟩
    cases f <;> cases ca <;> cases pa <;> cases t0 <;> cases t1 <;>
      simp_all [metaHasFailure, exceptFailed]

/-! ## Claim: zero-liquidity short-circuit -/

/-- C6: a sub-position with liquidity ≤ 0 is recorded as a skipped entry
without entering the price conversion; whenever `calculate` runs the body
without throwing, its detail is the all-zero, not-profitable detail, and
the quote batch holds exactly one entry per positive-liquidity
sub-position, so the skipped one occupies no batch slot. -/
theorem calc_zero_liquidity_short_circuit (st : CalcState) (env : CalcEnv)
    (req : GetRatesRequest) (i : Nat) (o : ReqInternalOption)
    (hmiss : cacheHit st env req = none)
    (hnt : (calculateBody st.poolMarketInfoCache env req).1.isThrown = false)
    (ho : req.internalOptions[i]? = some o)
    (hle : o.liquidity ≤ 0) :
    (calculateOptionProfitability st env req).1.details[i]? = some (zeroDetail i) ∧
      (∀ (quoterAddr tokenIn tokenOut : String) (poolFee : Nat) (am0 : Bool)
          (qs : List QuoteRequest) (ds : List OptionData),
        scanOptions quoterAddr tokenIn tokenOut poolFee am0 req.internalOptions 0 =
            .ok (qs, ds) →
        qs.length = (req.internalOptions.filter (fun o => 0 < o.liquidity)).length) := by
  rcases hb : calculateBody st.poolMarketInfoCache env req with ⟨outcome, pc'⟩
  rw [hb] at hnt
  simp only at hnt
  obtain ⟨info, qaddr, quoteReqs, ods, qres, total, details, hpmi, hqa, hscan, hqc, hproc,
    hresp, _⟩ := calculateBody_not_thrown_spec _ _ _ _ _ hb hnt
  obtain ⟨hdlen, hqlen, hcnt, hidx⟩ :=
    scanOptions_spec qaddr (assetToUse req info) (assetToGet req info) info.poolFee
      (isAmount0 req info) req.internalOptions 0 quoteReqs ods hscan
  have hod := (hidx i o ho).1 hle
  obtain ⟨hplen, hsum, hpidx⟩ := processResults_spec qres ods 0 0 total details hproc
  have hdet := (hpidx i _ hod).1 rfl
  have hr : ∃ r, outcome.response? = some r := by
    cases outcome <;> simp [CalcOutcome.response?, CalcOutcome.isThrown] at hnt ⊢
  obtain ⟨r, hrr⟩ := hr
  have hcr := calculate_response_of_body st env req outcome pc' hmiss hb r hrr
  have hfields := hresp r hrr
  constructor
  · rw [hcr, hfields.2.2.2]
    simpa [skipOptionData] using hdet
  · intro quoterAddr' tokenIn' tokenOut' poolFee' am0' qs' ds' hsc
    exact (scanOptions_spec quoterAddr' tokenIn' tokenOut' poolFee' am0'
      req.internalOptions 0 qs' ds' hsc).2.1

/-- Concrete instantiation of `calc_zero_liquidity_short_circuit`. -/
theorem calc_zero_liquidity_short_circuit_witness :
    (calculateOptionProfitability
        { profitabilityCache := [], poolMarketInfoCache := [] }
        { now := 0, rpcUrl := .ok "u", primePool := .ok "m",
          metaCalls := .ok { fee := .ok 500, callAsset := .ok "c", putAsset := .ok "p",
                             token0 := .ok "c", token1 := .ok "p" },
          quoterAddress := .ok "q", quoteCalls := .ok [], encodeOk := true,
          swapRouterSwapper := .ok "s" }
        { chainId := 1, market := "m", pool := "m", tokenId := "7", isCall := true,
          internalOptions := [{ tickLower := -100, tickUpper := 100, liquidity := 0 }] }
      ).1.details[0]? = some (zeroDetail 0) :=
  (calc_zero_liquidity_short_circuit
    { profitabilityCache := [], poolMarketInfoCache := [] }
    { now := 0, rpcUrl := .ok "u", primePool := .ok "m",
      metaCalls := .ok { fee := .ok 500, callAsset := .ok "c", putAsset := .ok "p",
                         token0 := .ok "c", token1 := .ok "p" },
      quoterAddress := .ok "q", quoteCalls := .ok [], encodeOk := true,
      swapRouterSwapper := .ok "s" }
    { chainId := 1, market := "m", pool := "m", tokenId := "7", isCall := true,
      internalOptions := [{ tickLower := -100, tickUpper := 100, liquidity := 0 }] }
    0 { tickLower := -100, tickUpper := 100, liquidity := 0 }
    rfl rfl rfl (by decide)).1

/-! ## Claim: per-sub-position profit and aggregation -/

/-- C7: on the fully successful path, each positive-liquidity sub-position
whose quote succeeded carries a detail whose profit is quotedAmountOut −
amountToRefill and whose profitable flag holds exactly when that profit is
positive; the aggregate totalProfit is the sum of exactly the positive
per-detail profits, the aggregate flag holds exactly when totalProfit is
positive, and the liquidity-to-exercise entry is the sub-position's
available liquidity when profitable and zero otherwise. -/
theorem calc_profit_aggregation (st : CalcState) (env : CalcEnv) (req : GetRatesRequest)
    (i : Nat) (o : ReqInternalOption) (qs : List (Except Unit (Int × Int × Int × Int)))
    (tup : Int × Int × Int × Int)
    (hmiss : cacheHit st env req = none)
    (hsucc : (calculateBody st.poolMarketInfoCache env req).1.isSuccess = true)
    (ho : req.internalOptions[i]? = some o)
    (hpos : 0 < o.liquidity)
    (hq : env.quoteCalls = .ok qs)
    (hqi : qs[((req.internalOptions.take i).filter (fun o => 0 < o.liquidity)).length]? =
      some (.ok tup)) :
    ∃ d, (calculateOptionProfitability st env req).1.details[i]? = some d ∧
      d.liquidityAvailable = o.liquidity ∧
      d.quotedAmountOut = tup.1 ∧
      d.profit = d.quotedAmountOut - d.amountToRefill ∧
      (d.isProfitable = true ↔ 0 < d.profit) ∧
      (calculateOptionProfitability st env req).1.exerciseParams.liquidityToExercise[i]? =
        some (if d.isProfitable then d.liquidityAvailable else 0) ∧
      (calculateOptionProfitability st env req).1.totalProfit =
        ((calculateOptionProfitability st env req).1.details.map
          (fun d => max d.profit 0)).sum ∧
      ((calculateOptionProfitability st env req).1.isProfitable = true ↔
        0 < (calculateOptionProfitability st env req).1.totalProfit) := by
  rcases hb : calculateBody st.poolMarketInfoCache env req with ⟨outcome, pc'⟩
  rw [hb] at hsucc
  simp only at hsucc
  cases outcome with
  | encodeFail r => simp [CalcOutcome.isSuccess] at hsucc
  | noSwapper r => simp [CalcOutcome.isSuccess] at hsucc
  | thrown => simp [CalcOutcome.isSuccess] at hsucc
  | success r =>
    obtain ⟨info, qaddr, quoteReqs, ods, qres, total, details, hpmi, hqa, hscan, hqc, hproc,
      hresp, hliq⟩ := calculateBody_not_thrown_spec _ _ _ _ _ hb rfl
    have hfields := hresp r rfl
    have hliqr := hliq r rfl
    have hcr := calculate_response_of_body st env req _ pc' hmiss hb r rfl
    obtain ⟨hdlen, hqlen, hcnt, hidx⟩ :=
      scanOptions_spec qaddr (assetToUse req info) (assetToGet req info) info.poolFee
        (isAmount0 req info) req.internalOptions 0 quoteReqs ods hscan
    obtain ⟨sqrtA, sqrtB, hA, hB, hods⟩ := (hidx i o ho).2 hpos
    obtain ⟨hplen, hsum, hpidx⟩ := processResults_spec qres ods 0 0 total details hproc
    obtain ⟨tup', htup', hcases⟩ := (hpidx i _ hods).2 (by simp [scannedOptionData])
    have hqr : 0 < quoteReqs.length := by
      rw [hqlen]
      have hmem : o ∈ req.internalOptions.filter (fun o => 0 < o.liquidity) :=
        List.mem_filter.mpr ⟨List.getElem?_mem ho, by simpa using hpos⟩
      exact List.length_pos.mpr (List.ne_nil_of_mem hmem)
    have hqres : qs = qres := by
      rw [if_pos hqr, hq] at hqc
      injection hqc
    rw [hcnt i, Nat.zero_add] at htup'
    rw [← hqres] at htup'
    rw [hqi] at htup'
    injection htup' with htup'
    have hds := hcases.2 tup htup'.symm
    refine ⟨quotedDetail (scannedOptionData (0 + i) o.liquidity sqrtA sqrtB
      (isAmount0 req info)) tup.1, ?_, ?_, ?_, ?_, ?_, ?_, ?_, ?_⟩
    · rw [hcr, hfields.2.2.2]
      exact hds
    · simp [quotedDetail, scannedOptionData]
    · simp [quotedDetail]
    · simp [quotedDetail]
    · simp [quotedDetail]
    · rw [hcr, hliqr]
      simp only [List.getElem?_map, hds]
      rfl
    · rw [hcr, hfields.2.1, hfields.2.2.2]
      simpa using hsum
    · rw [hcr, hfields.2.1, hfields.2.2.1]
      simp

/-- Concrete instantiation of `calc_profit_aggregation`: one sub-position,
ticks [-100, 100], liquidity 1000000, quoted output 10^30. -/
theorem calc_profit_aggregation_witness :
    ∃ d, (calculateOptionProfitability
        { profitabilityCache := [], poolMarketInfoCache := [] }
        { now := 0, rpcUrl := .ok "u", primePool := .ok "m",
          metaCalls := .ok { fee := .ok 500, callAsset := .ok "c", putAsset := .ok "p",
                             token0 := .ok "c", token1 := .ok "p" },
          quoterAddress := .ok "q",
          quoteCalls := .ok [.ok (1000000000000000000000000000000, 0, 0, 0)],
          encodeOk := true, swapRouterSwapper := .ok "s" }
        { chainId := 1, market := "m", pool := "m", tokenId := "7", isCall := true,
          internalOptions := [{ tickLower := -100, tickUpper := 100, liquidity := 1000000 }] }
      ).1.details[0]? = some d ∧
      d.liquidityAvailable = 1000000 ∧
      d.quotedAmountOut = (1000000000000000000000000000000, (0 : Int), (0 : Int),
        (0 : Int)).1 := by
  obtain ⟨d, h1, h2, h3, _⟩ := calc_profit_aggregation
    { profitabilityCache := [], poolMarketInfoCache := [] }
    { now := 0, rpcUrl := .ok "u", primePool := .ok "m",
      metaCalls := .ok { fee := .ok 500, callAsset := .ok "c", putAsset := .ok "p",
                         token0 := .ok "c", token1 := .ok "p" },
      quoterAddress := .ok "q",
      quoteCalls := .ok [.ok (1000000000000000000000000000000, 0, 0, 0)],
      encodeOk := true, swapRouterSwapper := .ok "s" }
    { chainId := 1, market := "m", pool := "m", tokenId := "7", isCall := true,
      internalOptions := [{ tickLower := -100, tickUpper := 100, liquidity := 1000000 }] }
    0 { tickLower := -100, tickUpper := 100, liquidity := 1000000 }
    [.ok (1000000000000000000000000000000, 0, 0, 0)]
    (1000000000000000000000000000000, 0, 0, 0)
    rfl rfl rfl (by decide) rfl rfl
  exact ⟨d, h1, h2, h3⟩

/-! ## Claim: fail-safe behaviour on batch failures -/

/-- C2 counterexample: with a two-sub-position request whose quote batch
reports a failure for the first sub-position and a large successful quote
for the second, `calculate` returns a result marked profitable with a
non-zero liquidity-to-exercise entry derived from the remaining data — it
does not return the all-zero not-profitable result the claim requires for
any quote-batch failure. -/
theorem failsafe_counterexample :
    (Except.ok [Except.error (), Except.ok ((1000000000000000000000000000000 : Int),
          (0 : Int), (0 : Int), (0 : Int))] :
        Except Unit (List (Except Unit (Int × Int × Int × Int)))) =
      .ok [.error (), .ok (1000000000000000000000000000000, 0, 0, 0)] ∧
      (calculateOptionProfitability
        { profitabilityCache := [], poolMarketInfoCache := [] }
        { now := 0, rpcUrl := .ok "u", primePool := .ok "m",
          metaCalls := .ok { fee := .ok 500, callAsset := .ok "c", putAsset := .ok "p",
                             token0 := .ok "c", token1 := .ok "p" },
          quoterAddress := .ok "q",
          quoteCalls := .ok [.error (),
            .ok (1000000000000000000000000000000, 0, 0, 0)],
          encodeOk := true, swapRouterSwapper := .ok "s" }
        { chainId := 1, market := "m", pool := "m", tokenId := "7", isCall := true,
          internalOptions := [{ tickLower := -100, tickUpper := 100, liquidity := 1000000 },
                              { tickLower := -100, tickUpper := 100, liquidity := 1000000 }] }
      ).1.isProfitable = true ∧
      (calculateOptionProfitability
        { profitabilityCache := [], poolMarketInfoCache := [] }
        { now := 0, rpcUrl := .ok "u", primePool := .ok "m",
          metaCalls := .ok { fee := .ok 500, callAsset := .ok "c", putAsset := .ok "p",
                             token0 := .ok "c", token1 := .ok "p" },
          quoterAddress := .ok "q",
          quoteCalls := .ok [.error (),
            .ok (1000000000000000000000000000000, 0, 0, 0)],
          encodeOk := true, swapRouterSwapper := .ok "s" }
        { chainId := 1, market := "m", pool := "m", tokenId := "7", isCall := true,
          internalOptions := [{ tickLower := -100, tickUpper := 100, liquidity := 1000000 },
                              { tickLower := -100, tickUpper := 100, liquidity := 1000000 }] }
      ).1.exerciseParams.liquidityToExercise = [0, 1000000] := by
  refine ⟨rfl, ?_, ?_⟩ <;> rfl

/-- C2 amended: a failure in the metadata batch does fail closed —
`calculate` returns the not-profitable response with every
liquidity-to-exercise entry zero and no details.  A failure inside the
quote batch, however, only zeroes the failing sub-position: its detail has
quotedAmountOut 0, profit 0 and isProfitable false and its
liquidity-to-exercise entry is 0, while the remaining sub-positions'
quotes continue to drive the result. -/
theorem failsafe_amended :
    (∀ (st : CalcState) (env : CalcEnv) (req : GetRatesRequest) (m : MetaCallResults),
        cacheHit st env req = none →
        assocFind st.poolMarketInfoCache
            (generatePoolMarketCacheKey req.chainId req.market req.pool) = none →
        env.metaCalls = .ok m → metaHasFailure m = true →
        (calculateOptionProfitability st env req).1.isProfitable = false ∧
          (calculateOptionProfitability st env req).1.exerciseParams.liquidityToExercise =
            List.replicate req.internalOptions.length 0 ∧
          (calculateOptionProfitability st env req).1.details = []) ∧
      (∀ (st : CalcState) (env : CalcEnv) (req : GetRatesRequest) (i : Nat)
          (o : ReqInternalOption) (qs : List (Except Unit (Int × Int × Int × Int))),
        cacheHit st env req = none →
        (calculateBody st.poolMarketInfoCache env req).1.isSuccess = true →
        req.internalOptions[i]? = some o → 0 < o.liquidity →
        env.quoteCalls = .ok qs →
        qs[((req.internalOptions.take i).filter (fun o => 0 < o.liquidity)).length]? =
          some (.error ()) →
        ∃ d, (calculateOptionProfitability st env req).1.details[i]? = some d ∧
          d.quotedAmountOut = 0 ∧ d.profit = 0 ∧ d.isProfitable = false ∧
          (calculateOptionProfitability st env req).1.exerciseParams.liquidityToExercise[i]? =
            some 0) := by
  constructor
  · intro st env req m hmiss hpool hmc hfail
    have hpmf := getPoolMarketInfo_meta_failure st.poolMarketInfoCache env req.chainId
      req.market req.pool m hpool hmc hfail
    have hthrown : calculateBody st.poolMarketInfoCache env req =
        (.thrown, st.poolMarketInfoCache) := by
      unfold calculateBody
      rcases hrpc : env.rpcUrl with e | u
      · simp only [hrpc]
      · simp only [hrpc, hpmf]
    have hcalc : calculateOptionProfitability st env req =
        (catchResponse req, { st with poolMarketInfoCache := st.poolMarketInfoCache }) := by
      unfold calculateOptionProfitability
      rw [hmiss, hthrown]
    rw [hcalc]
    exact ⟨rfl, rfl, rfl⟩
  · intro st env req i o qs hmiss hsucc ho hpos hq hqi
    rcases hb : calculateBody st.poolMarketInfoCache env req with ⟨outcome, pc'⟩
    rw [hb] at hsucc
    simp only at hsucc
    cases outcome with
    | encodeFail r => simp [CalcOutcome.isSuccess] at hsucc
    | noSwapper r => simp [CalcOutcome.isSuccess] at hsucc
    | thrown => simp [CalcOutcome.isSuccess] at hsucc
    | success r =>
      obtain ⟨info, qaddr, quoteReqs, ods, qres, total, details, hpmi, hqa, hscan, hqc, hproc,
        hresp, hliq⟩ := calculateBody_not_thrown_spec _ _ _ _ _ hb rfl
      have hfields := hresp r rfl
      have hliqr := hliq r rfl
      have hcr := calculate_response_of_body st env req _ pc' hmiss hb r rfl
      obtain ⟨hdlen, hqlen, hcnt, hidx⟩ :=
        scanOptions_spec qaddr (assetToUse req info) (assetToGet req info) info.poolFee
          (isAmount0 req info) req.internalOptions 0 quoteReqs ods hscan
      obtain ⟨sqrtA, sqrtB, hA, hB, hods⟩ := (hidx i o ho).2 hpos
      obtain ⟨hplen, hsum, hpidx⟩ := processResults_spec qres ods 0 0 total details hproc
      obtain ⟨tup', htup', hcases⟩ := (hpidx i _ hods).2 (by simp [scannedOptionData])
      have hqr : 0 < quoteReqs.length := by
        rw [hqlen]
        have hmem : o ∈ req.internalOptions.filter (fun o => 0 < o.liquidity) :=
          List.mem_filter.mpr ⟨List.getElem?_mem ho, by simpa using hpos⟩
        exact List.length_pos.mpr (List.ne_nil_of_mem hmem)
      have hqres : qs = qres := by
        rw [if_pos hqr, hq] at hqc
        injection hqc
      rw [hcnt i, Nat.zero_add] at htup'
      rw [← hqres] at htup'
      rw [hqi] at htup'
      injection htup' with htup'
      have hds := hcases.1 () htup'.symm
      refine ⟨failedQuoteDetail (scannedOptionData (0 + i) o.liquidity sqrtA sqrtB
        (isAmount0 req info)), ?_, rfl, rfl, rfl, ?_⟩
      · rw [hcr, hfields.2.2.2]
        exact hds
      · rw [hcr, hliqr]
        simp only [List.getElem?_map, hds]
        rfl

/-- Concrete instantiation of `failsafe_amended`: a failed sub-call inside
the metadata batch yields the not-profitable, all-zero response. -/
theorem failsafe_amended_witness :
    (calculateOptionProfitability
        { profitabilityCache := [], poolMarketInfoCache := [] }
        { now := 0, rpcUrl := .ok "u", primePool := .ok "m",
          metaCalls := .ok { fee := .error (), callAsset := .ok "c", putAsset := .ok "p",
                             token0 := .ok "c", token1 := .ok "p" },
          quoterAddress := .ok "q", quoteCalls := .ok [], encodeOk := true,
          swapRouterSwapper := .ok "s" }
        { chainId := 1, market := "m", pool := "m", tokenId := "7", isCall := true,
          internalOptions := [{ tickLower := -100, tickUpper := 100, liquidity := 5 }] }
      ).1.isProfitable = false :=
  (failsafe_amended.1
    { profitabilityCache := [], poolMarketInfoCache := [] }
    { now := 0, rpcUrl := .ok "u", primePool := .ok "m",
      metaCalls := .ok { fee := .error (), callAsset := .ok "c", putAsset := .ok "p",
                         token0 := .ok "c", token1 := .ok "p" },
      quoterAddress := .ok "q", quoteCalls := .ok [], encodeOk := true,
      swapRouterSwapper := .ok "s" }
    { chainId := 1, market := "m", pool := "m", tokenId := "7", isCall := true,
      internalOptions := [{ tickLower := -100, tickUpper := 100, liquidity := 5 }] }
    { fee := .error (), callAsset := .ok "c", putAsset := .ok "p",
      token0 := .ok "c", token1 := .ok "p" }
    rfl rfl rfl rfl).1

end SettlementModel
